import Mathlib

set_option maxRecDepth 8192

/-!
Shallow embedding of the deltachat-core-rust components under verification:

* `src/authres_handling.rs` — the Authentication-Results gate,
* `src/sql/serialize.rs` — the database snapshot encoder,
* `src/sql/deserialize.rs` — the snapshot tokenizer and decoder,
* `src/scheduler.rs` — the SMTP loop retry-timeout update.

Strings from the Rust side are modelled as `List Char`, raw byte streams as
`List Nat` (each element one byte value).  Loops of the source are embedded as
structurally recursive functions; where the source loop is not structurally
recursive we thread an explicit fuel argument that the call sites instantiate
with a bound that the loop can never exhaust (each iteration consumes at least
one element of input).
-/

namespace Authres

/-- Verdict about DKIM extracted from one Authentication-Results header
(`DkimResult` in src/authres_handling.rs). -/
inductive DkimResult where
  | Passed
  | Failed
  | Nothing
deriving DecidableEq

/-- Fueled worker for `remove_comments`: the Rust code applies the lazy regex
replace_all of a parenthesized comment by a single space.  replace_all scans
left to right; at the leftmost unconsumed opening paren the lazy match extends
to the first closing paren after it; if no closing paren follows, no further
match exists and the remainder is kept verbatim.  Fuel decreases once per
consumed character, so fuel = input length suffices. -/
def removeCommentsF : Nat → List Char → List Char
  | 0, l => l
  | _, [] => []
  | fuel+1, c :: rest =>
    if c = '(' then
      if ')' ∈ rest then
        ' ' :: removeCommentsF fuel ((rest.dropWhile (fun d => d ≠ ')')).tail)
      else c :: rest
    else c :: removeCommentsF fuel rest

/-- Comment stripping of `remove_comments` (src/authres_handling.rs). -/
def removeComments (l : List Char) : List Char :=
  removeCommentsF l.length l

/-- Accumulator worker for Rust `str::split_whitespace` (whitespace runs
separate words, empty words are dropped).  `Char.isWhitespace` stands in for
Rust `char::is_whitespace`. -/
def splitWsAux : List Char → List Char → List (List Char)
  | cur, [] => if cur = [] then [] else [cur.reverse]
  | cur, c :: t =>
    if c.isWhitespace then
      if cur = [] then splitWsAux [] t else cur.reverse :: splitWsAux [] t
    else splitWsAux (c :: cur) t

/-- Rust `str::split_whitespace`. -/
def splitWhitespace (l : List Char) : List (List Char) :=
  splitWsAux [] l

/-- Rust `str::split_once(pat)`: split at the leftmost occurrence of `pat`,
returning the parts before and after it. -/
def splitOnce (pat : List Char) : List Char → Option (List Char × List Char)
  | [] => if pat = [] then some ([], []) else none
  | c :: t =>
    if pat.isPrefixOf (c :: t) then some ([], (c :: t).drop pat.length)
    else
      match splitOnce pat t with
      | some (a, b) => some (c :: a, b)
      | none => none

/-- Parse of a single comment-stripped Authentication-Results value
(`parse_one_authres_header` in src/authres_handling.rs): look at the token
after the first `dkim=`; `pass` together with a matching `header.d=`/`header.i=@`
clause is `Passed`, `pass` without one is `Nothing`, any other explicit verdict
is `Failed`, no `dkim=` at all is `Nothing`. -/
def parseOneAuthresHeader (headerValue fromDomain : List Char) : DkimResult :=
  match splitOnce "dkim=".toList headerValue with
  | some (_start, dkimToEnd) =>
    let dkimPart := dkimToEnd.takeWhile (fun c => c ≠ ';')
    let dkimParts := splitWhitespace dkimPart
    match dkimParts.head? with
    | some w =>
      if w = "pass".toList then
        let headerD := "header.d=".toList ++ fromDomain
        let headerI := "header.i=@".toList ++ fromDomain
        if headerD ∈ dkimParts ∨ headerI ∈ dkimParts then DkimResult.Passed
        else DkimResult.Nothing
      else DkimResult.Failed
    | none => DkimResult.Failed
  | none => DkimResult.Nothing

/-- Authserv-id of one comment-stripped header value: the part before the first
semicolon; whitespace inside it or emptiness is replaced by the sentinel
`invalidAuthservId` (src/authres_handling.rs, `parse_authres_headers`). -/
def authservIdOf (headerValue : List Char) : List Char :=
  let authservId := headerValue.takeWhile (fun c => c ≠ ';')
  if authservId.any Char.isWhitespace ∨ authservId = [] then
    "invalidAuthservId".toList
  else authservId

/-- Per-header step of `parse_authres_headers`. -/
def parseAuthresHeader (headerValue fromDomain : List Char) :
    List Char × DkimResult :=
  let hv := removeComments headerValue
  (authservIdOf hv, parseOneAuthresHeader hv fromDomain)

/-- Full `parse_authres_headers`: one entry per Authentication-Results header
value of the message (`split(';').next()` always yields a value, so each
header contributes exactly one entry). -/
def parseAuthresHeaders (headers : List (List Char)) (fromDomain : List Char) :
    List (List Char × DkimResult) :=
  headers.map (fun hv => parseAuthresHeader hv fromDomain)

/-- Persistent state read and written by the authres gate: the config value
`authservid_candidates` and the `sending_domains` table.  The config value is
a space-separated join of a `HashSet` whose iteration order Rust leaves
unspecified; every use of the value parses it back into a set with
`parse_authservid_candidates_config`, so the state is modelled by the parsed
set itself (ids produced by the parser are nonempty and whitespace-free, hence
join followed by re-split is the identity on the set).  A `sending_domains`
row is a `(domain, dkim_works)` pair. -/
structure State where
  authservidCandidates : Finset (List Char)
  sendingDomains : List (List Char × Bool)
deriving DecidableEq

/-- Candidate-set update of `update_authservid_candidates`
(src/authres_handling.rs): no-op when the message has no authres ids;
otherwise intersect with the stored candidates, falling back to the incoming
ids when the intersection is empty, and clear the whole `sending_domains`
table whenever the stored set changes. -/
def updateAuthservidCandidates (s : State)
    (authres : List (List Char × DkimResult)) : State :=
  let newIds : Finset (List Char) := (authres.map Prod.fst).toFinset
  if newIds = ∅ then s
  else
    let oldIds := s.authservidCandidates
    let intersection := oldIds ∩ newIds
    let newIds1 := if intersection ≠ ∅ then intersection else newIds
    if oldIds ≠ newIds1 then
      { authservidCandidates := newIds1, sendingDomains := [] }
    else s

/-- Table read `dkim_works` (SELECT dkim_works FROM sending_domains WHERE
domain=?), `unwrap_or(false)`. -/
def dkimWorks (s : State) (fromDomain : List Char) : Bool :=
  ((s.sendingDomains.find? (fun p => decide (p.1 = fromDomain))).map Prod.snd).getD false

/-- Table upsert `set_dkim_works` (INSERT ... ON CONFLICT(domain) DO UPDATE SET
dkim_works=1). -/
def setDkimWorks (s : State) (fromDomain : List Char) : State :=
  if (s.sendingDomains.find? (fun p => decide (p.1 = fromDomain))).isSome then
    { s with sendingDomains :=
        s.sendingDomains.map (fun p => if p.1 = fromDomain then (p.1, true) else p) }
  else
    { s with sendingDomains := s.sendingDomains ++ [(fromDomain, true)] }

/-- Scan loop of `should_allow_keychange` over the retained entries: the first
`Passed` decides pass, the first `Failed` decides fail, `Nothing` continues;
the flag starts false. -/
def scanDkim : List (List Char × DkimResult) → Bool
  | [] => false
  | (_, DkimResult.Passed) :: _ => true
  | (_, DkimResult.Failed) :: _ => false
  | (_, DkimResult.Nothing) :: rest => scanDkim rest

/-- Gate decision `should_allow_keychange` (src/authres_handling.rs): drop
entries whose authserv-id is outside the candidate set, treat an empty
remainder as pass, otherwise scan; remember a fresh pass in
`sending_domains`; return `dkim_passed || !dkim_works`. -/
def shouldAllowKeychange (s : State) (authres : List (List Char × DkimResult))
    (fromDomain : List Char) : Bool × State :=
  let ids := s.authservidCandidates
  let retained := authres.filter (fun e => decide (e.1 ∈ ids))
  let dkimPassed := if retained.isEmpty then true else scanDkim retained
  let works := dkimWorks s fromDomain
  let s1 := if !works && dkimPassed then setDkimWorks s fromDomain else s
  (dkimPassed || !works, s1)

/-- Reference form of the pass flag computed inside `should_allow_keychange`
(the value of its local `dkim_passed` just before the return). -/
def dkimPassedOf (s : State) (authres : List (List Char × DkimResult)) : Bool :=
  let retained := authres.filter (fun e => decide (e.1 ∈ s.authservidCandidates))
  if retained.isEmpty then true else scanDkim retained

/-- Pipeline of `handle_authres` after the From address has been parsed into
its domain (the `EmailAddress` parser lives outside the embedded sources; on
its failure the function returns false with no state change, identically for
any header list).  Returns the keychange verdict together with the updated
persistent state. -/
def handleAuthres (s : State) (headers : List (List Char))
    (fromDomain : List Char) : Bool × State :=
  let authres := parseAuthresHeaders headers fromDomain
  let s1 := updateAuthservidCandidates s authres
  shouldAllowKeychange s1 authres fromDomain

/-- Three-way interleaving of lists: `Interleave xs ys zs` holds when `zs`
merges `xs` and `ys` keeping the relative order inside each.  Inserting extra
headers into a message yields an interleaving of the original header list and
the extra ones. -/
inductive Interleave {α : Type} : List α → List α → List α → Prop where
  | nil : Interleave [] [] []
  | left {x : α} {xs ys zs : List α} :
      Interleave xs ys zs → Interleave (x :: xs) ys (x :: zs)
  | right {y : α} {xs ys zs : List α} :
      Interleave xs ys zs → Interleave xs (y :: ys) (y :: zs)

end Authres

namespace Snapshot

/-- Row of the `contacts` table as read by `Encoder::serialize_contacts`
(src/sql/serialize.rs): `origin` is `Origin::to_u32` (an `Option`), `blocked`
is read as `Option<bool>` and defaulted, `status` stays optional.  Strings are
byte lists. -/
structure Contact where
  id : Nat
  name : List Nat
  addr : List Nat
  origin : Option Nat
  blocked : Option Bool
  last_seen : Int
  param : List Nat
  authname : List Nat
  selfavatar_sent : Int
  status : Option (List Nat)
deriving DecidableEq

/-- Row of the `chats` table as used by `Encoder::serialize_chats`: only `id`
and the optional `Chattype::to_u32` are emitted. -/
structure Chat where
  id : Nat
  typ : Option Nat
deriving DecidableEq

/-- Row of the `keypairs` table (`Encoder::serialize_keypairs`). -/
structure Keypair where
  id : Nat
  addr : List Nat
  is_default : Nat
  private_key : List Nat
  public_key : List Nat
  created : Int
deriving DecidableEq

/-- Row of the `msgs` table (`Encoder::serialize_messages`).  `mime_headers`
is the value after the source's NULL-to-empty normalization. -/
structure Msg where
  id : Int
  rfc724_mid : List Nat
  chat_id : Int
  from_id : Int
  to_id : Int
  timestamp : Int
  typ : Int
  state : Int
  msgrmsg : Int
  bytes : Int
  txt : List Nat
  txt_raw : List Nat
  param : List Nat
  timestamp_sent : Int
  timestamp_rcvd : Int
  hidden : Int
  mime_headers : List Nat
  mime_in_reply_to : Option (List Nat)
  mime_references : Option (List Nat)
  location_id : Int
deriving DecidableEq

/-- Row of the `msgs_mdns` table (`Encoder::serialize_mdns`). -/
structure Mdn where
  msg_id : Nat
  contact_id : Nat
  timestamp_sent : Int
deriving DecidableEq

/-- The tables of the store touched by the snapshot codec: the seven tables
the encoder walks (`config` rows are key/value byte-string pairs, in table
order).  The decoder writes only into `config`. -/
structure Store where
  config : List (List Nat × List Nat)
  contacts : List Contact
  chats : List Chat
  leftgrps : List (List Nat)
  keypairs : List Keypair
  msgs : List Msg
  msgs_mdns : List Mdn
deriving DecidableEq

/-- Store with all tables empty. -/
def emptyStore : Store :=
  { config := [], contacts := [], chats := [], leftgrps := [], keypairs := [],
    msgs := [], msgs_mdns := [] }

/-- Tokens of the bencoded snapshot stream (`BencodeToken` in
src/sql/deserialize.rs). -/
inductive BencodeToken where
  | End
  | ByteString (s : List Nat)
  | Integer (i : Int)
  | List
  | Dictionary
deriving DecidableEq

/-- Rust `BufRead::read_until(delim)`: consume bytes up to and including the
first delimiter, or up to end of input when the delimiter is absent; returns
the consumed bytes and the remaining stream. -/
def readUntil (delim : Nat) : List Nat → List Nat × List Nat
  | [] => ([], [])
  | b :: t =>
    if b = delim then ([b], t)
    else
      let r := readUntil delim t
      (b :: r.1, r.2)

/-- Accumulating decimal parser: fails at the first non-digit byte. -/
def parseDigitsGo (acc : Nat) : List Nat → Option Nat
  | [] => some acc
  | b :: t =>
    if 48 ≤ b ∧ b ≤ 57 then parseDigitsGo (acc * 10 + (b - 48)) t else none

/-- Non-empty all-digit byte string to number. -/
def parseDigits (bs : List Nat) : Option Nat :=
  match bs with
  | [] => none
  | _ :: _ => parseDigitsGo 0 bs

/-- Rust `i64::from_str`: optional sign, at least one digit, result within the
i64 range; anything else (including the invalid-utf8 bytes that would fail the
source's utf8 check first) is an error. -/
def parseI64 (bs : List Nat) : Option Int :=
  match bs with
  | [] => none
  | b :: t =>
    if b = 43 then
      (parseDigits t).bind fun n =>
        if n ≤ 2 ^ 63 - 1 then some (Int.ofNat n) else none
    else if b = 45 then
      (parseDigits t).bind fun n =>
        if n ≤ 2 ^ 63 then some (-(Int.ofNat n)) else none
    else
      (parseDigits (b :: t)).bind fun n =>
        if n ≤ 2 ^ 63 - 1 then some (Int.ofNat n) else none

/-- Rust `usize::from_str` on a 64-bit target: optional plus sign, digits,
value below 2^64. -/
def parseUsize (bs : List Nat) : Option Nat :=
  match bs with
  | [] => none
  | b :: t =>
    if b = 43 then
      (parseDigits t).bind fun n => if n < 2 ^ 64 then some n else none
    else
      (parseDigits (b :: t)).bind fun n => if n < 2 ^ 64 then some n else none

/-- One step of `BencodeTokenizer::next_token` (src/sql/deserialize.rs).  The
source's loop body returns from every match arm, so it runs exactly once per
call; in particular no arm skips newline bytes, and a newline in token-start
position falls into the last arm and is a fatal error.  `none` is end of
input.  The integer arm drops the leading `i` and the final consumed byte
(`ibuf.get(1..n-1)`), the string arm drops the final consumed byte of the
length prefix (`size_buf.get(0..n-1)`) and then reads exactly `size` payload
bytes, failing when fewer remain (`read_exact`).  The `peeked_token` cache of
the source is an optimization invisible here: tokenization is a pure function
of the remaining stream. -/
def nextToken : List Nat → Except String (Option (BencodeToken × List Nat))
  | [] => Except.ok none
  | b :: t =>
    if b = 101 then Except.ok (some (BencodeToken.End, t))
    else if b = 108 then Except.ok (some (BencodeToken.List, t))
    else if b = 100 then Except.ok (some (BencodeToken.Dictionary, t))
    else if b = 105 then
      let r := readUntil 101 (b :: t)
      match parseI64 ((r.1.drop 1).dropLast) with
      | some i => Except.ok (some (BencodeToken.Integer i, r.2))
      | none => Except.error "cannot parse the number"
    else if 48 ≤ b ∧ b ≤ 57 then
      let r := readUntil 58 (b :: t)
      match parseUsize (r.1.dropLast) with
      | some size =>
        if size ≤ r.2.length then
          Except.ok
            (some (BencodeToken.ByteString (r.2.take size), r.2.drop size))
        else Except.error "error while reading a string"
      | none => Except.error "cannot parse length prefix"
    else Except.error "unexpected byte"

/-- Full token sequence of a stream, with fuel (every produced token consumes
at least one byte, so fuel = length + 1 never runs out). -/
def tokenizeAll : Nat → List Nat → Except String (List BencodeToken)
  | 0, _ => Except.error "out of fuel"
  | fuel+1, s =>
    match nextToken s with
    | Except.error e => Except.error e
    | Except.ok none => Except.ok []
    | Except.ok (some (t, s1)) =>
      match tokenizeAll fuel s1 with
      | Except.ok ts => Except.ok (t :: ts)
      | Except.error e => Except.error e

/-- Token sequence produced by the tokenizer on a whole stream. -/
def tokenize (s : List Nat) : Except String (List BencodeToken) :=
  tokenizeAll (s.length + 1) s

/-- ASCII bytes of a literal. -/
def strBytes (s : String) : List Nat := s.toList.map Char.toNat

/-- `Decoder::expect_token`: next token, error on end of input. -/
def expectToken (s : List Nat) : Except String (BencodeToken × List Nat) :=
  match nextToken s with
  | Except.error e => Except.error e
  | Except.ok none => Except.error "unexpected end of file"
  | Except.ok (some r) => Except.ok r

/-- `Decoder::expect_end`. -/
def expectEnd (s : List Nat) : Except String (List Nat) :=
  match expectToken s with
  | Except.ok (BencodeToken.End, s1) => Except.ok s1
  | Except.ok _ => Except.error "unexpected token, expected end"
  | Except.error e => Except.error e

/-- `Decoder::expect_dictionary`. -/
def expectDictionary (s : List Nat) : Except String (List Nat) :=
  match expectToken s with
  | Except.ok (BencodeToken.Dictionary, s1) => Except.ok s1
  | Except.ok _ => Except.error "unexpected token, expected dictionary"
  | Except.error e => Except.error e

/-- `Decoder::expect_dictionary_opt`: true when a dictionary starts, false at
the end token. -/
def expectDictionaryOpt (s : List Nat) : Except String (Bool × List Nat) :=
  match expectToken s with
  | Except.ok (BencodeToken.Dictionary, s1) => Except.ok (true, s1)
  | Except.ok (BencodeToken.End, s1) => Except.ok (false, s1)
  | Except.ok _ => Except.error "unexpected token, expected dictionary or end"
  | Except.error e => Except.error e

/-- `Decoder::expect_list`. -/
def expectList (s : List Nat) : Except String (List Nat) :=
  match expectToken s with
  | Except.ok (BencodeToken.List, s1) => Except.ok s1
  | Except.ok _ => Except.error "unexpected token, expected list"
  | Except.error e => Except.error e

/-- `Decoder::expect_string`. -/
def expectString (s : List Nat) : Except String (List Nat × List Nat) :=
  match expectToken s with
  | Except.ok (BencodeToken.ByteString b, s1) => Except.ok (b, s1)
  | Except.ok _ => Except.error "unexpected token, expected string"
  | Except.error e => Except.error e

/-- `Decoder::expect_key`: consume a byte-string token equal to the expected
key. -/
def expectKey (expected : List Nat) (s : List Nat) : Except String (List Nat) :=
  match expectToken s with
  | Except.ok (BencodeToken.ByteString k, s1) =>
    if k = expected then Except.ok s1 else Except.error "unexpected key"
  | Except.ok _ => Except.error "unexpected token, expected string"
  | Except.error e => Except.error e

/-- `Decoder::expect_key_opt`: peek at the next token without consuming;
true when it is the expected key, false at a different key or at the end
token; other token kinds and end of input are errors.  The source's peek
cache is equivalent to re-reading the deterministic stream. -/
def expectKeyOpt (expected : List Nat) (s : List Nat) : Except String Bool :=
  match expectToken s with
  | Except.ok (BencodeToken.ByteString k, _) => Except.ok (decide (k = expected))
  | Except.ok (BencodeToken.End, _) => Except.ok false
  | Except.ok _ => Except.error "unexpected token, expected string"
  | Except.error e => Except.error e

/-- `Decoder::expect_i64`. -/
def expectI64 (s : List Nat) : Except String (Int × List Nat) :=
  match expectToken s with
  | Except.ok (BencodeToken.Integer i, s1) => Except.ok (i, s1)
  | Except.ok _ => Except.error "unexpected token, expected integer"
  | Except.error e => Except.error e

/-- `Decoder::skip_until_end`: discard tokens, tracking nesting depth, until
the matching end token.  Fuel decreases once per consumed token. -/
def skipUntilEnd : Nat → Nat → List Nat → Except String (List Nat)
  | 0, _, _ => Except.error "out of fuel"
  | fuel+1, level, s =>
    match expectToken s with
    | Except.error e => Except.error e
    | Except.ok (BencodeToken.End, s1) =>
      if level = 0 then Except.ok s1 else skipUntilEnd fuel (level - 1) s1
    | Except.ok (BencodeToken.ByteString _, s1) => skipUntilEnd fuel level s1
    | Except.ok (BencodeToken.Integer _, s1) => skipUntilEnd fuel level s1
    | Except.ok (BencodeToken.List, s1) => skipUntilEnd fuel (level + 1) s1
    | Except.ok (BencodeToken.Dictionary, s1) => skipUntilEnd fuel (level + 1) s1

/-- Bytes of the key checked by `deserialize_config`. -/
def dbversionBytes : List Nat := strBytes "dbversion"

/-- Bytes of the only accepted dbversion value. -/
def v99Bytes : List Nat := strBytes "99"

/-- Loop of `Decoder::deserialize_config` (src/sql/deserialize.rs): read
key/value byte-string pairs, inserting each into the `config` table of the
transaction; a duplicate `dbversion`, a `dbversion` value other than "99", a
non-string token in key position, or reaching the end without having seen
`dbversion` are fatal. -/
def deserializeConfigLoop : Nat → Store → Bool → List Nat →
    Except String (Store × List Nat)
  | 0, _, _, _ => Except.error "out of fuel"
  | fuel+1, tx, dbversionFound, s =>
    match expectToken s with
    | Except.error e => Except.error e
    | Except.ok (BencodeToken.ByteString key, s1) =>
      (match expectString s1 with
      | Except.error e => Except.error e
      | Except.ok (value, s2) =>
        if key = dbversionBytes then
          if dbversionFound then
            Except.error "dbversion key found twice in the config"
          else if value ≠ v99Bytes then
            Except.error "unsupported serialized database version"
          else
            deserializeConfigLoop fuel
              { tx with config := tx.config ++ [(key, value)] } true s2
        else
          deserializeConfigLoop fuel
            { tx with config := tx.config ++ [(key, value)] } dbversionFound s2)
    | Except.ok (BencodeToken.End, s1) =>
      if dbversionFound then Except.ok (tx, s1)
      else Except.error "no dbversion found in the config"
    | Except.ok (_, _) => Except.error "unexpected token, expected config key"

/-- `Decoder::deserialize_config`: a dictionary of key/value pairs with the
mandatory `dbversion` equal to "99". -/
def deserializeConfig (fuel : Nat) (tx : Store) (s : List Nat) :
    Except String (Store × List Nat) :=
  match expectDictionary s with
  | Except.error e => Except.error e
  | Except.ok s1 => deserializeConfigLoop fuel tx false s1

/-- Optional-field pattern of `deserialize_acpeerstates`: `expect_key_opt`
peeks; when the key matches, the source calls `expect_string` once, which
consumes the peeked key token (the value token stays in the stream). -/
def optStringField (key : String) (s : List Nat) : Except String (List Nat) :=
  match expectKeyOpt (strBytes key) s with
  | Except.error e => Except.error e
  | Except.ok true => (expectString s).map (fun r => r.2)
  | Except.ok false => Except.ok s

/-- Required integer field: `expect_key` then `expect_i64`. -/
def i64Field (key : String) (s : List Nat) : Except String (List Nat) :=
  (expectKey (strBytes key) s).bind fun s1 => (expectI64 s1).map (fun r => r.2)

/-- Fields of one `acpeerstates` row after its dictionary token
(`Decoder::deserialize_acpeerstates`); all read values are dropped. -/
def acpeerstatesRowTail (s1 : List Nat) : Except String (List Nat) :=
  (expectKey (strBytes "addr") s1).bind fun s2 =>
  (expectString s2).bind fun r2 =>
  (optStringField "gossip_key" r2.2).bind fun s3 =>
  (optStringField "gossip_key_fingerprint" s3).bind fun s4 =>
  (i64Field "gossip_timestamp" s4).bind fun s5 =>
  (i64Field "last_seen" s5).bind fun s6 =>
  (i64Field "last_seen_autocrypt" s6).bind fun s7 =>
  (i64Field "prefer_encrypted" s7).bind fun s8 =>
  (optStringField "public_key" s8).bind fun s9 =>
  (optStringField "public_key_fingerprint" s9).bind fun s10 =>
  (optStringField "verified_key" s10).bind fun s11 =>
  (optStringField "verified_key_fingerprint" s11).bind fun s12 =>
  expectEnd s12

/-- Row loop of `Decoder::deserialize_acpeerstates`. -/
def acpeerstatesLoop : Nat → List Nat → Except String (List Nat)
  | 0, _ => Except.error "out of fuel"
  | fuel+1, s =>
    match expectDictionaryOpt s with
    | Except.error e => Except.error e
    | Except.ok (false, s1) => Except.ok s1
    | Except.ok (true, s1) =>
      match acpeerstatesRowTail s1 with
      | Except.error e => Except.error e
      | Except.ok s2 => acpeerstatesLoop fuel s2

/-- `Decoder::deserialize_acpeerstates`. -/
def deserializeAcpeerstates (fuel : Nat) (s : List Nat) :
    Except String (List Nat) :=
  (expectList s).bind (acpeerstatesLoop fuel)

/-- Common body of `deserialize_chats`, `deserialize_chats_contacts`,
`deserialize_contacts`, `deserialize_dns_cache`, `deserialize_imap`,
`deserialize_imap_sync`, `deserialize_keypairs`, `deserialize_leftgroups`,
`deserialize_locations`, `deserialize_mdns`, `deserialize_messages`,
`deserialize_msgs_status_updates`, `deserialize_multi_device_sync`,
`deserialize_reactions`, `deserialize_sending_domains` and
`deserialize_tokens` in src/sql/deserialize.rs: each is exactly
`expect_list` followed by `skip_until_end`, writing nothing into the
transaction. -/
def deserializeListSkip (fuel : Nat) (s : List Nat) :
    Except String (List Nat) :=
  (expectList s).bind (skipUntilEnd fuel 0)

/-- `Decoder::deserialize` (src/sql/deserialize.rs): the strict ordered walk
of the top-level dictionary.  Only the `_config` section writes into the
transaction; the trailing `self.tx.commit()` of the source is commented out
(`TODO: uncomment`), so the function returns the transaction for the caller
to drop. -/
def Decoder.deserialize (fuel : Nat) (tx : Store) (s : List Nat) :
    Except String (Store × List Nat) :=
  (expectDictionary s).bind fun s1 =>
  (expectKey (strBytes "_config") s1).bind fun s2 =>
  (deserializeConfig fuel tx s2).bind fun r =>
  (expectKey (strBytes "acpeerstates") r.2).bind fun s3 =>
  (deserializeAcpeerstates fuel s3).bind fun s4 =>
  (expectKey (strBytes "chats") s4).bind fun s5 =>
  (deserializeListSkip fuel s5).bind fun s6 =>
  (expectKey (strBytes "chats_contacts") s6).bind fun s7 =>
  (deserializeListSkip fuel s7).bind fun s8 =>
  (expectKey (strBytes "contacts") s8).bind fun s9 =>
  (deserializeListSkip fuel s9).bind fun s10 =>
  (expectKey (strBytes "dns_cache") s10).bind fun s11 =>
  (deserializeListSkip fuel s11).bind fun s12 =>
  (expectKey (strBytes "imap") s12).bind fun s13 =>
  (deserializeListSkip fuel s13).bind fun s14 =>
  (expectKey (strBytes "imap_sync") s14).bind fun s15 =>
  (deserializeListSkip fuel s15).bind fun s16 =>
  (expectKey (strBytes "keypairs") s16).bind fun s17 =>
  (deserializeListSkip fuel s17).bind fun s18 =>
  (expectKey (strBytes "leftgroups") s18).bind fun s19 =>
  (deserializeListSkip fuel s19).bind fun s20 =>
  (expectKey (strBytes "locations") s20).bind fun s21 =>
  (deserializeListSkip fuel s21).bind fun s22 =>
  (expectKey (strBytes "mdns") s22).bind fun s23 =>
  (deserializeListSkip fuel s23).bind fun s24 =>
  (expectKey (strBytes "messages") s24).bind fun s25 =>
  (deserializeListSkip fuel s25).bind fun s26 =>
  (expectKey (strBytes "msgs_status_updates") s26).bind fun s27 =>
  (deserializeListSkip fuel s27).bind fun s28 =>
  (expectKey (strBytes "multi_device_sync") s28).bind fun s29 =>
  (deserializeListSkip fuel s29).bind fun s30 =>
  (expectKey (strBytes "reactions") s30).bind fun s31 =>
  (deserializeListSkip fuel s31).bind fun s32 =>
  (expectKey (strBytes "sending_domains") s32).bind fun s33 =>
  (deserializeListSkip fuel s33).bind fun s34 =>
  (expectKey (strBytes "tokens") s34).bind fun s35 =>
  (deserializeListSkip fuel s35).bind fun s36 =>
  (expectEnd s36).map (fun s37 => (r.1, s37))

/-- Fueled most-significant-first decimal digit bytes of a positive number;
fuel bounds the recursion (the value shrinks by a factor of ten per step, so
fuel = the number itself is always enough). -/
def natDecimalAux : Nat → Nat → List Nat
  | 0, _ => []
  | fuel+1, n =>
    if n = 0 then [] else natDecimalAux fuel (n / 10) ++ [48 + n % 10]

/-- Decimal ASCII bytes of a natural number, as Rust `format!` produces. -/
def natDecimal (n : Nat) : List Nat :=
  if n = 0 then [48] else natDecimalAux n n

/-- Decimal ASCII bytes of a signed integer, as Rust `format!` produces. -/
def intDecimal (i : Int) : List Nat :=
  if i < 0 then 45 :: natDecimal i.natAbs else natDecimal i.toNat

/-- `write_bytes` of src/sql/serialize.rs: length prefix, colon, payload,
newline, appended to the writer. -/
def writeBytesW (w b : List Nat) : List Nat :=
  w ++ natDecimal b.length ++ [58] ++ b ++ [10]

/-- `write_str`: a string is written as its bytes. -/
def writeStrW (w s : List Nat) : List Nat := writeBytesW w s

/-- `write_i64`: `i`, decimal digits, `e`, newline. -/
def writeI64W (w : List Nat) (i : Int) : List Nat :=
  w ++ [105] ++ intDecimal i ++ [101, 10]

/-- `write_u32`. -/
def writeU32W (w : List Nat) (i : Nat) : List Nat :=
  w ++ [105] ++ natDecimal i ++ [101, 10]

/-- `write_bool`: integers 1/0. -/
def writeBoolW (w : List Nat) (b : Bool) : List Nat :=
  w ++ (if b then [105, 49, 101, 10] else [105, 48, 101, 10])

/-- `Encoder::serialize_config`: a dictionary of the key/value rows of the
`config` table, in table order. -/
def serializeConfigW (w : List Nat) (rows : List (List Nat × List Nat)) :
    List Nat :=
  (rows.foldl (fun w kv => writeStrW (writeStrW w kv.1) kv.2) (w ++ [100, 10]))
    ++ [101, 10]

/-- One row of `Encoder::serialize_contacts`: fixed field order, `origin`
emitted only when present, `blocked` defaulted, `status` emitted only when
present and non-empty. -/
def contactRowW (w : List Nat) (c : Contact) : List Nat :=
  let w := w ++ [100, 10]
  let w := writeU32W (writeStrW w (strBytes "id")) c.id
  let w := writeStrW (writeStrW w (strBytes "name")) c.name
  let w := writeStrW (writeStrW w (strBytes "addr")) c.addr
  let w := match c.origin with
    | some origin => writeU32W (writeStrW w (strBytes "origin")) origin
    | none => w
  let w := writeBoolW (writeStrW w (strBytes "blocked")) (c.blocked.getD false)
  let w := writeI64W (writeStrW w (strBytes "last_seen")) c.last_seen
  let w := writeStrW (writeStrW w (strBytes "param")) c.param
  let w := writeStrW (writeStrW w (strBytes "authname")) c.authname
  let w := writeI64W (writeStrW w (strBytes "selfavatar_sent")) c.selfavatar_sent
  let w := match c.status with
    | some status =>
      if status ≠ [] then writeStrW (writeStrW w (strBytes "status")) status
      else w
    | none => w
  w ++ [101, 10]

/-- `Encoder::serialize_contacts`: note the bare `l` without newline. -/
def serializeContactsW (w : List Nat) (rows : List Contact) : List Nat :=
  (rows.foldl contactRowW (w ++ [108])) ++ [101, 10]

/-- One row of `Encoder::serialize_chats`: only `id` and the optional type. -/
def chatRowW (w : List Nat) (c : Chat) : List Nat :=
  let w := w ++ [100, 10]
  let w := writeU32W (writeStrW w (strBytes "id")) c.id
  let w := match c.typ with
    | some typ => writeU32W (writeStrW w (strBytes "type")) typ
    | none => w
  w ++ [101, 10]

/-- `Encoder::serialize_chats`. -/
def serializeChatsW (w : List Nat) (rows : List Chat) : List Nat :=
  (rows.foldl chatRowW (w ++ [108, 10])) ++ [101, 10]

/-- `Encoder::serialize_leftgroups`: a flat list of group-id strings. -/
def serializeLeftgroupsW (w : List Nat) (rows : List (List Nat)) : List Nat :=
  (rows.foldl writeStrW (w ++ [108])) ++ [101, 10]

/-- One row of `Encoder::serialize_keypairs`; the source writes the `addr`
value under the key `type`. -/
def keypairRowW (w : List Nat) (k : Keypair) : List Nat :=
  let w := w ++ [100, 10]
  let w := writeU32W (writeStrW w (strBytes "id")) k.id
  let w := writeStrW (writeStrW w (strBytes "type")) k.addr
  let w := writeBoolW (writeStrW w (strBytes "is_default")) (k.is_default ≠ 0)
  let w := writeBytesW (writeStrW w (strBytes "private_key")) k.private_key
  let w := writeBytesW (writeStrW w (strBytes "public_key")) k.public_key
  let w := writeI64W (writeStrW w (strBytes "created")) k.created
  w ++ [101, 10]

/-- `Encoder::serialize_keypairs`. -/
def serializeKeypairsW (w : List Nat) (rows : List Keypair) : List Nat :=
  (rows.foldl keypairRowW (w ++ [108, 10])) ++ [101, 10]

/-- One row of `Encoder::serialize_messages`: fixed order, the two
`mime_in_reply_to`/`mime_references` fields only when present. -/
def msgRowW (w : List Nat) (m : Msg) : List Nat :=
  let w := w ++ [100, 10]
  let w := writeI64W (writeStrW w (strBytes "id")) m.id
  let w := writeStrW (writeStrW w (strBytes "rfc724_mid")) m.rfc724_mid
  let w := writeI64W (writeStrW w (strBytes "chat_id")) m.chat_id
  let w := writeI64W (writeStrW w (strBytes "from_id")) m.from_id
  let w := writeI64W (writeStrW w (strBytes "to_id")) m.to_id
  let w := writeI64W (writeStrW w (strBytes "timestamp")) m.timestamp
  let w := writeI64W (writeStrW w (strBytes "type")) m.typ
  let w := writeI64W (writeStrW w (strBytes "state")) m.state
  let w := writeI64W (writeStrW w (strBytes "msgrmsg")) m.msgrmsg
  let w := writeI64W (writeStrW w (strBytes "bytes")) m.bytes
  let w := writeStrW (writeStrW w (strBytes "txt")) m.txt
  let w := writeStrW (writeStrW w (strBytes "txt_raw")) m.txt_raw
  let w := writeStrW (writeStrW w (strBytes "param")) m.param
  let w := writeI64W (writeStrW w (strBytes "timestamp_sent")) m.timestamp_sent
  let w := writeI64W (writeStrW w (strBytes "timestamp_rcvd")) m.timestamp_rcvd
  let w := writeI64W (writeStrW w (strBytes "hidden")) m.hidden
  let w := writeBytesW (writeStrW w (strBytes "mime_headers")) m.mime_headers
  let w := match m.mime_in_reply_to with
    | some v => writeStrW (writeStrW w (strBytes "mime_in_reply_to")) v
    | none => w
  let w := match m.mime_references with
    | some v => writeStrW (writeStrW w (strBytes "mime_references")) v
    | none => w
  let w := writeI64W (writeStrW w (strBytes "location_id")) m.location_id
  w ++ [101, 10]

/-- `Encoder::serialize_messages`. -/
def serializeMessagesW (w : List Nat) (rows : List Msg) : List Nat :=
  (rows.foldl msgRowW (w ++ [108, 10])) ++ [101, 10]

/-- One row of `Encoder::serialize_mdns`. -/
def mdnRowW (w : List Nat) (m : Mdn) : List Nat :=
  let w := w ++ [100, 10]
  let w := writeU32W (writeStrW w (strBytes "msg_id")) m.msg_id
  let w := writeU32W (writeStrW w (strBytes "contact_id")) m.contact_id
  let w := writeI64W (writeStrW w (strBytes "timestamp_sent")) m.timestamp_sent
  w ++ [101, 10]

/-- `Encoder::serialize_mdns`. -/
def serializeMdnsW (w : List Nat) (rows : List Mdn) : List Nat :=
  (rows.foldl mdnRowW (w ++ [108, 10])) ++ [101, 10]

/-- `Encoder::serialize` (src/sql/serialize.rs): the top-level dictionary in
the source's emission order — `config, contacts, chats, leftgroups, keypairs,
messages, mdns` — inside a read transaction on the store. -/
def Encoder.serialize (store : Store) : List Nat :=
  let w : List Nat := []
  let w := w ++ [100, 10]
  let w := writeStrW w (strBytes "config")
  let w := serializeConfigW w store.config
  let w := writeStrW w (strBytes "contacts")
  let w := serializeContactsW w store.contacts
  let w := writeStrW w (strBytes "chats")
  let w := serializeChatsW w store.chats
  let w := writeStrW w (strBytes "leftgroups")
  let w := serializeLeftgroupsW w store.leftgrps
  let w := writeStrW w (strBytes "keypairs")
  let w := serializeKeypairsW w store.keypairs
  let w := writeStrW w (strBytes "messages")
  let w := serializeMessagesW w store.msgs
  let w := writeStrW w (strBytes "mdns")
  let w := serializeMdnsW w store.msgs_mdns
  w ++ [101, 10]

/-- `Sql::deserialize` (src/sql/deserialize.rs): open a write transaction on
the store, run the decoder, and return.  The transaction is dropped in every
case — the decoder's `commit` call is commented out in the source — so the
second component, the store visible after the call, is the input store.  Fuel
is the stream length plus one: every loop iteration of the decoder consumes
at least one byte of the remaining stream, which is a suffix of the input. -/
def Sql.deserialize (store : Store) (r : List Nat) :
    Except String Unit × Store :=
  match Decoder.deserialize (r.length + 1) store r with
  | Except.ok _ => (Except.ok (), store)
  | Except.error e => (Except.error e, store)

/-- Flat byte form of one length-prefixed string line of the snapshot
format. -/
def bencStrLine (b : List Nat) : List Nat :=
  natDecimal b.length ++ [58] ++ b ++ [10]

/-- Flat byte form of one signed integer line. -/
def bencI64Line (i : Int) : List Nat := [105] ++ intDecimal i ++ [101, 10]

/-- Flat byte form of one unsigned integer line. -/
def bencU32Line (n : Nat) : List Nat := [105] ++ natDecimal n ++ [101, 10]

/-- Flat byte form of one boolean line. -/
def bencBoolLine (b : Bool) : List Nat :=
  if b then [105, 49, 101, 10] else [105, 48, 101, 10]

/-- Flat byte form of the `config` section. -/
def configSectionBytes (rows : List (List Nat × List Nat)) : List Nat :=
  [100, 10]
  ++ (rows.flatMap fun kv => bencStrLine kv.1 ++ bencStrLine kv.2)
  ++ [101, 10]

/-- Flat byte form of one `contacts` row. -/
def contactRowBytes (c : Contact) : List Nat :=
  [100, 10]
  ++ bencStrLine (strBytes "id") ++ bencU32Line c.id
  ++ bencStrLine (strBytes "name") ++ bencStrLine c.name
  ++ bencStrLine (strBytes "addr") ++ bencStrLine c.addr
  ++ (match c.origin with
      | some origin => bencStrLine (strBytes "origin") ++ bencU32Line origin
      | none => [])
  ++ bencStrLine (strBytes "blocked") ++ bencBoolLine (c.blocked.getD false)
  ++ bencStrLine (strBytes "last_seen") ++ bencI64Line c.last_seen
  ++ bencStrLine (strBytes "param") ++ bencStrLine c.param
  ++ bencStrLine (strBytes "authname") ++ bencStrLine c.authname
  ++ bencStrLine (strBytes "selfavatar_sent") ++ bencI64Line c.selfavatar_sent
  ++ (match c.status with
      | some status =>
        if status ≠ [] then
          bencStrLine (strBytes "status") ++ bencStrLine status
        else []
      | none => [])
  ++ [101, 10]

/-- Flat byte form of the `contacts` section. -/
def contactsSectionBytes (rows : List Contact) : List Nat :=
  [108] ++ rows.flatMap contactRowBytes ++ [101, 10]

/-- Flat byte form of one `chats` row. -/
def chatRowBytes (c : Chat) : List Nat :=
  [100, 10]
  ++ bencStrLine (strBytes "id") ++ bencU32Line c.id
  ++ (match c.typ with
      | some typ => bencStrLine (strBytes "type") ++ bencU32Line typ
      | none => [])
  ++ [101, 10]

/-- Flat byte form of the `chats` section. -/
def chatsSectionBytes (rows : List Chat) : List Nat :=
  [108, 10] ++ rows.flatMap chatRowBytes ++ [101, 10]

/-- Flat byte form of the `leftgroups` section. -/
def leftgroupsSectionBytes (rows : List (List Nat)) : List Nat :=
  [108] ++ rows.flatMap bencStrLine ++ [101, 10]

/-- Flat byte form of one `keypairs` row. -/
def keypairRowBytes (k : Keypair) : List Nat :=
  [100, 10]
  ++ bencStrLine (strBytes "id") ++ bencU32Line k.id
  ++ bencStrLine (strBytes "type") ++ bencStrLine k.addr
  ++ bencStrLine (strBytes "is_default") ++ bencBoolLine (k.is_default ≠ 0)
  ++ bencStrLine (strBytes "private_key") ++ bencStrLine k.private_key
  ++ bencStrLine (strBytes "public_key") ++ bencStrLine k.public_key
  ++ bencStrLine (strBytes "created") ++ bencI64Line k.created
  ++ [101, 10]

/-- Flat byte form of the `keypairs` section. -/
def keypairsSectionBytes (rows : List Keypair) : List Nat :=
  [108, 10] ++ rows.flatMap keypairRowBytes ++ [101, 10]

/-- Flat byte form of one `messages` row. -/
def msgRowBytes (m : Msg) : List Nat :=
  [100, 10]
  ++ bencStrLine (strBytes "id") ++ bencI64Line m.id
  ++ bencStrLine (strBytes "rfc724_mid") ++ bencStrLine m.rfc724_mid
  ++ bencStrLine (strBytes "chat_id") ++ bencI64Line m.chat_id
  ++ bencStrLine (strBytes "from_id") ++ bencI64Line m.from_id
  ++ bencStrLine (strBytes "to_id") ++ bencI64Line m.to_id
  ++ bencStrLine (strBytes "timestamp") ++ bencI64Line m.timestamp
  ++ bencStrLine (strBytes "type") ++ bencI64Line m.typ
  ++ bencStrLine (strBytes "state") ++ bencI64Line m.state
  ++ bencStrLine (strBytes "msgrmsg") ++ bencI64Line m.msgrmsg
  ++ bencStrLine (strBytes "bytes") ++ bencI64Line m.bytes
  ++ bencStrLine (strBytes "txt") ++ bencStrLine m.txt
  ++ bencStrLine (strBytes "txt_raw") ++ bencStrLine m.txt_raw
  ++ bencStrLine (strBytes "param") ++ bencStrLine m.param
  ++ bencStrLine (strBytes "timestamp_sent") ++ bencI64Line m.timestamp_sent
  ++ bencStrLine (strBytes "timestamp_rcvd") ++ bencI64Line m.timestamp_rcvd
  ++ bencStrLine (strBytes "hidden") ++ bencI64Line m.hidden
  ++ bencStrLine (strBytes "mime_headers") ++ bencStrLine m.mime_headers
  ++ (match m.mime_in_reply_to with
      | some v => bencStrLine (strBytes "mime_in_reply_to") ++ bencStrLine v
      | none => [])
  ++ (match m.mime_references with
      | some v => bencStrLine (strBytes "mime_references") ++ bencStrLine v
      | none => [])
  ++ bencStrLine (strBytes "location_id") ++ bencI64Line m.location_id
  ++ [101, 10]

/-- Flat byte form of the `messages` section. -/
def messagesSectionBytes (rows : List Msg) : List Nat :=
  [108, 10] ++ rows.flatMap msgRowBytes ++ [101, 10]

/-- Flat byte form of one `mdns` row. -/
def mdnRowBytes (m : Mdn) : List Nat :=
  [100, 10]
  ++ bencStrLine (strBytes "msg_id") ++ bencU32Line m.msg_id
  ++ bencStrLine (strBytes "contact_id") ++ bencU32Line m.contact_id
  ++ bencStrLine (strBytes "timestamp_sent") ++ bencI64Line m.timestamp_sent
  ++ [101, 10]

/-- Flat byte form of the `mdns` section. -/
def mdnsSectionBytes (rows : List Mdn) : List Nat :=
  [108, 10] ++ rows.flatMap mdnRowBytes ++ [101, 10]

/-- Byte-sequence prefix test (over `List Nat`). -/
def startsWithSeq : List Nat → List Nat → Bool
  | [], _ => true
  | _ :: _, [] => false
  | a :: p, b :: l => a == b && startsWithSeq p l

/-- Byte-sequence occurrence test: true when the pattern occurs contiguously
anywhere in the list. -/
def occursSeq (pat : List Nat) : List Nat → Bool
  | [] => startsWithSeq pat []
  | b :: l => startsWithSeq pat (b :: l) || occursSeq pat l

/-- Contact row of scenario S6 of the spec. -/
def s6Contact : Contact :=
  { id := 10, name := strBytes "Ana", addr := strBytes "ana@x.y",
    origin := some 16, blocked := some false, last_seen := 1700000000,
    param := [], authname := [], selfavatar_sent := 0, status := none }

/-- Store matching scenario S6 of the spec. -/
def s6Store : Store :=
  { config := [(strBytes "dbversion", strBytes "99")],
    contacts := [s6Contact],
    chats := [], leftgrps := [], keypairs := [], msgs := [], msgs_mdns := [] }

/-- Canonical newline-free byte encoding of one byte-string token: decimal
length, colon, payload.  This is the token form of the snapshot format used
to state properties quantified over section contents. -/
def strEnc (b : List Nat) : List Nat :=
  natDecimal b.length ++ [58] ++ b

/-- Canonical newline-free byte encoding of the key/value pairs of a config
section body. -/
def pairsFlat (pairs : List (List Nat × List Nat)) : List Nat :=
  pairs.flatMap fun kv => strEnc kv.1 ++ strEnc kv.2

end Snapshot

namespace Scheduler

/-- Saturating u64 multiplication by three, as `timeout.saturating_mul(3)` in
`smtp_loop` (src/scheduler.rs) computes on a 64-bit unsigned value. -/
def satMul3 (t : Nat) : Nat := min (3 * t) (2 ^ 64 - 1)

/-- Per-iteration update of the retry-timeout variable of `smtp_loop`
(src/scheduler.rs).  On a failed send the variable becomes
`Some(timeout.map_or(30, |t| t.saturating_mul(3)))`; the rate limiter is
consulted only on success, and a rate-limited success `continue`s without
touching the variable; a success with the limiter idle clears it. -/
def smtpLoopStep (timeout : Option Nat) (sendFailed rateLimited : Bool) :
    Option Nat :=
  if sendFailed then
    some (match timeout with
      | none => 30
      | some t => satMul3 t)
  else if rateLimited then timeout
  else none

/-- The retry-timeout after k consecutive failing iterations starting from
the given value (the rate-limit flag is irrelevant on the failure path). -/
def iterFail : Nat → Option Nat → Option Nat
  | 0, t => t
  | k+1, t => iterFail k (smtpLoopStep t true false)

end Scheduler

section AuthresScenarios

open Authres

example :
    parseAuthresHeaders ["mx.x; dkim=pass (1024-bit) header.d=riseup.net;".toList]
      "riseup.net".toList
      = [("mx.x".toList, DkimResult.Passed)] := by decide

example :
    parseAuthresHeaders
      ["gmx.net; dkim=pass header.i=@slack.com".toList,
       "gmx.net; dkim=pass header.i=@amazonses.com".toList] "slack.com".toList
      = [("gmx.net".toList, DkimResult.Passed),
         ("gmx.net".toList, DkimResult.Nothing)] := by decide

example :
    parseAuthresHeaders
      ["spf=pass (sender IP is 40.92.73.85) smtp.mailfrom=hotmail.com; dkim=pass (signature was verified) header.d=hotmail.com;dmarc=pass action=none".toList]
      "hotmail.com".toList
      = [("invalidAuthservId".toList, DkimResult.Passed)] := by decide

example :
    removeComments "((something weird) no comment".toList
      = "  no comment".toList := by decide

end AuthresScenarios

namespace Authres

/-- Case equation for `updateAuthservidCandidates`: a message without authres
entries leaves the state alone. -/
theorem update_nil (s : State) (L : List (List Char × DkimResult))
    (hN : (L.map Prod.fst).toFinset = ∅) :
    updateAuthservidCandidates s L = s := by
  simp [updateAuthservidCandidates, hN]

/-- Case equation for `updateAuthservidCandidates`: with a non-empty
intersection the new candidate set is the intersection, and `sending_domains`
is cleared exactly when the set changes. -/
theorem update_inter (s : State) (L : List (List Char × DkimResult))
    (hI : s.authservidCandidates ∩ (L.map Prod.fst).toFinset ≠ ∅) :
    updateAuthservidCandidates s L =
      if s.authservidCandidates
          ≠ s.authservidCandidates ∩ (L.map Prod.fst).toFinset then
        { authservidCandidates :=
            s.authservidCandidates ∩ (L.map Prod.fst).toFinset,
          sendingDomains := [] }
      else s := by
  have hN : (L.map Prod.fst).toFinset ≠ ∅ := by
    intro h
    exact hI (by rw [h, Finset.inter_empty])
  simp only [updateAuthservidCandidates, if_neg hN, if_pos hI]

/-- Case equation for `updateAuthservidCandidates`: an empty intersection with
non-empty incoming ids resets the candidate set to the incoming ids and clears
`sending_domains`. -/
theorem update_reset (s : State) (L : List (List Char × DkimResult))
    (hN : (L.map Prod.fst).toFinset ≠ ∅)
    (hI : s.authservidCandidates ∩ (L.map Prod.fst).toFinset = ∅) :
    updateAuthservidCandidates s L =
      { authservidCandidates := (L.map Prod.fst).toFinset,
        sendingDomains := [] } := by
  have hne : s.authservidCandidates ≠ (L.map Prod.fst).toFinset := by
    intro h
    rw [h, Finset.inter_self] at hI
    exact hN hI
  have hinner :
      (if s.authservidCandidates ∩ (L.map Prod.fst).toFinset ≠ ∅ then
          s.authservidCandidates ∩ (L.map Prod.fst).toFinset
        else (L.map Prod.fst).toFinset) = (L.map Prod.fst).toFinset :=
    if_neg (fun hc => hc hI)
  simp only [updateAuthservidCandidates, if_neg hN]
  rw [hinner, if_pos hne]

/-- Projection of the gate verdict: `should_allow_keychange` returns the local
pass flag or-ed with the negated `dkim_works` lookup. -/
theorem shouldAllow_fst (s : State) (L : List (List Char × DkimResult))
    (d : List Char) :
    (shouldAllowKeychange s L d).1 = (dkimPassedOf s L || !dkimWorks s d) := rfl

/-- With a cleared `sending_domains` table `dkim_works` is false for every
domain, so the gate verdict is true whatever the entries say. -/
theorem verdict_true_of_sd_nil (s : State) (L : List (List Char × DkimResult))
    (d : List Char) (h : s.sendingDomains = []) :
    (shouldAllowKeychange s L d).1 = true := by
  rw [shouldAllow_fst]
  have hw : dkimWorks s d = false := by simp [dkimWorks, h]
  rw [hw]
  simp

/-- The scan over entries none of which is `Passed` always yields false. -/
theorem scanDkim_eq_false (L : List (List Char × DkimResult))
    (h : ∀ e ∈ L, e.2 ≠ DkimResult.Passed) : scanDkim L = false := by
  induction L with
  | nil => rfl
  | cons a t ih =>
    match a, h a (by simp) with
    | (i, DkimResult.Failed), _ => rfl
    | (i, DkimResult.Nothing), _ =>
      exact ih (fun e he => h e (List.mem_cons_of_mem _ he))

/-- Mapping a function over an interleaving gives an interleaving. -/
theorem Interleave.map {α β : Type} (f : α → β) {xs ys zs : List α}
    (h : Interleave xs ys zs) :
    Interleave (xs.map f) (ys.map f) (zs.map f) := by
  induction h with
  | nil => exact Interleave.nil
  | left _ ih => exact Interleave.left ih
  | right _ ih => exact Interleave.right ih

/-- An interleaving with empty left part is the right part. -/
theorem Interleave.nil_left {α : Type} {ys zs : List α}
    (h : Interleave [] ys zs) : zs = ys := by
  generalize hx : ([] : List α) = xs at h
  induction h with
  | nil => rfl
  | left _ _ => exact absurd hx.symm (by simp)
  | right _ ih => simp [ih hx]

/-- Filtering an interleaving whose right part fails the predicate everywhere
gives the filtered left part. -/
theorem Interleave.filter_eq {α : Type} (p : α → Bool) {xs ys zs : List α}
    (h : Interleave xs ys zs) (hy : ∀ y ∈ ys, p y = false) :
    zs.filter p = xs.filter p := by
  induction h with
  | nil => rfl
  | @left x _ _ _ _ ih => simp [List.filter_cons, ih hy]
  | @right y _ _ _ _ ih =>
    have hp := hy y (by simp)
    simp [List.filter_cons, hp]
    exact ih (fun a ha => hy a (List.mem_cons_of_mem _ ha))

/-- An interleaving is a permutation of the concatenation of its parts. -/
theorem Interleave.perm {α : Type} {xs ys zs : List α}
    (h : Interleave xs ys zs) : zs.Perm (xs ++ ys) := by
  induction h with
  | nil => exact List.Perm.refl _
  | left _ ih => exact ih.cons _
  | right _ ih => exact (ih.cons _).trans List.perm_middle.symm

/-- Identifier sets: the ids of an interleaving are the union of the ids of
the parts. -/
theorem Interleave.toFinset_map {α β : Type} [DecidableEq β] (f : α → β)
    {xs ys zs : List α} (h : Interleave xs ys zs) :
    (zs.map f).toFinset = (xs.map f).toFinset ∪ (ys.map f).toFinset := by
  ext a
  have hp := h.perm
  simp only [List.mem_toFinset, Finset.mem_union, List.mem_map]
  constructor
  · rintro ⟨b, hb, rfl⟩
    rcases List.mem_append.mp (hp.subset hb) with hb1 | hb1
    · exact Or.inl ⟨b, hb1, rfl⟩
    · exact Or.inr ⟨b, hb1, rfl⟩
  · rintro (⟨b, hb, rfl⟩ | ⟨b, hb, rfl⟩)
    · exact ⟨b, hp.symm.subset (List.mem_append.mpr (Or.inl hb)), rfl⟩
    · exact ⟨b, hp.symm.subset (List.mem_append.mpr (Or.inr hb)), rfl⟩

/-- State effect of `update_authservid_candidates` on the `sending_domains`
table: cleared when the candidate set changes, untouched otherwise. -/
theorem update_sd_spec (s : State) (L : List (List Char × DkimResult)) :
    ((updateAuthservidCandidates s L).authservidCandidates
        ≠ s.authservidCandidates →
      (updateAuthservidCandidates s L).sendingDomains = []) ∧
    ((updateAuthservidCandidates s L).authservidCandidates
        = s.authservidCandidates →
      (updateAuthservidCandidates s L).sendingDomains = s.sendingDomains) := by
  by_cases hN : (L.map Prod.fst).toFinset = ∅
  · rw [update_nil s L hN]
    exact ⟨fun h => absurd rfl h, fun _ => rfl⟩
  · by_cases hI : s.authservidCandidates ∩ (L.map Prod.fst).toFinset = ∅
    · rw [update_reset s L hN hI]
      refine ⟨fun _ => rfl, fun h => ?_⟩
      exfalso
      apply hN
      rw [← h] at hI
      simpa using hI
    · rw [update_inter s L hI]
      by_cases hc : s.authservidCandidates
          = s.authservidCandidates ∩ (L.map Prod.fst).toFinset
      · rw [if_neg (fun hh => hh hc)]
        exact ⟨fun h => absurd rfl h, fun _ => rfl⟩
      · rw [if_pos hc]
        exact ⟨fun _ => rfl, fun h => absurd h.symm hc⟩

end Authres

section AuthresClaims

open Authres

/-- C2 (confirmed): for every prior candidate set `old` and every processed
message whose parsed authserv-ids form the set `N`, the candidate set after
`update_authservid_candidates` equals `old ∩ N` when that intersection is
non-empty, `N` when the intersection is empty and `N` is non-empty, and `old`
(the whole state unchanged) when `N` is empty; it is never a strict superset
of `old` except via the reset branch. -/
theorem claim_C2_candidate_update (s : State) (headers : List (List Char))
    (fromDomain : List Char) :
    (((parseAuthresHeaders headers fromDomain).map Prod.fst).toFinset = ∅ →
      updateAuthservidCandidates s (parseAuthresHeaders headers fromDomain)
        = s) ∧
    (s.authservidCandidates ∩
        ((parseAuthresHeaders headers fromDomain).map Prod.fst).toFinset ≠ ∅ →
      (updateAuthservidCandidates s
          (parseAuthresHeaders headers fromDomain)).authservidCandidates =
        s.authservidCandidates ∩
          ((parseAuthresHeaders headers fromDomain).map Prod.fst).toFinset) ∧
    (((parseAuthresHeaders headers fromDomain).map Prod.fst).toFinset ≠ ∅ →
      s.authservidCandidates ∩
          ((parseAuthresHeaders headers fromDomain).map Prod.fst).toFinset
        = ∅ →
      (updateAuthservidCandidates s
          (parseAuthresHeaders headers fromDomain)).authservidCandidates =
        ((parseAuthresHeaders headers fromDomain).map Prod.fst).toFinset) ∧
    ((updateAuthservidCandidates s
          (parseAuthresHeaders headers fromDomain)).authservidCandidates ⊆
        s.authservidCandidates ∨
      (((parseAuthresHeaders headers fromDomain).map Prod.fst).toFinset ≠ ∅ ∧
        s.authservidCandidates ∩
          ((parseAuthresHeaders headers fromDomain).map Prod.fst).toFinset
          = ∅)) := by
  refine ⟨fun hN => update_nil s _ hN, fun hI => ?_, fun hN hI => ?_, ?_⟩
  · rw [update_inter s _ hI]
    by_cases hc : s.authservidCandidates = s.authservidCandidates ∩
        ((parseAuthresHeaders headers fromDomain).map Prod.fst).toFinset
    · rw [if_neg (fun hh => hh hc)]
      exact hc
    · rw [if_pos hc]
  · rw [update_reset s _ hN hI]
  · by_cases hN : ((parseAuthresHeaders headers fromDomain).map
        Prod.fst).toFinset = ∅
    · rw [update_nil s _ hN]
      exact Or.inl (Finset.Subset.refl _)
    · by_cases hI : s.authservidCandidates ∩
          ((parseAuthresHeaders headers fromDomain).map Prod.fst).toFinset = ∅
      · exact Or.inr ⟨hN, hI⟩
      · refine Or.inl ?_
        rw [update_inter s _ hI]
        by_cases hc : s.authservidCandidates = s.authservidCandidates ∩
            ((parseAuthresHeaders headers fromDomain).map Prod.fst).toFinset
        · rw [if_neg (fun hh => hh hc)]
        · rw [if_pos hc]
          exact Finset.inter_subset_left

/-- Witness for C2 at a concrete state and message: candidates start as the
singleton mx.x, the message carries authserv-ids mx.x and other.org, and the
updated candidate set is the intersection. -/
theorem claim_C2_witness :
    (updateAuthservidCandidates
        { authservidCandidates := {"mx.x".toList}, sendingDomains := [] }
        (parseAuthresHeaders
          ["mx.x; dkim=pass header.d=x.y".toList,
           "other.org; dkim=pass header.d=x.y".toList]
          "x.y".toList)).authservidCandidates =
      ({"mx.x".toList} : Finset (List Char)) ∩
        ((parseAuthresHeaders
          ["mx.x; dkim=pass header.d=x.y".toList,
           "other.org; dkim=pass header.d=x.y".toList]
          "x.y".toList).map Prod.fst).toFinset :=
  (claim_C2_candidate_update
    { authservidCandidates := {"mx.x".toList}, sendingDomains := [] }
    ["mx.x; dkim=pass header.d=x.y".toList,
     "other.org; dkim=pass header.d=x.y".toList]
    "x.y".toList).2.1 (by decide)

/-- C3 (confirmed): if processing a message changes the stored candidate set
then `sending_domains` is empty immediately afterwards, and if the candidate
set is unchanged the table is untouched. -/
theorem claim_C3_dkim_works_clearing (s : State) (headers : List (List Char))
    (fromDomain : List Char) :
    ((updateAuthservidCandidates s
          (parseAuthresHeaders headers fromDomain)).authservidCandidates
        ≠ s.authservidCandidates →
      (updateAuthservidCandidates s
          (parseAuthresHeaders headers fromDomain)).sendingDomains = []) ∧
    ((updateAuthservidCandidates s
          (parseAuthresHeaders headers fromDomain)).authservidCandidates
        = s.authservidCandidates →
      (updateAuthservidCandidates s
          (parseAuthresHeaders headers fromDomain)).sendingDomains
        = s.sendingDomains) :=
  update_sd_spec s (parseAuthresHeaders headers fromDomain)

/-- Witness for C3 at a concrete rotation: candidates rotate from mx3 to mx4,
so the previously recorded dkim_works row for x.y is wiped. -/
theorem claim_C3_witness :
    (updateAuthservidCandidates
        { authservidCandidates := {"mx3.example.com".toList},
          sendingDomains := [("x.y".toList, true)] }
        (parseAuthresHeaders ["mx4.example.com; dkim=pass header.d=x.y".toList]
          "x.y".toList)).sendingDomains = [] :=
  (claim_C3_dkim_works_clearing
    { authservidCandidates := {"mx3.example.com".toList},
      sendingDomains := [("x.y".toList, true)] }
    ["mx4.example.com; dkim=pass header.d=x.y".toList]
    "x.y".toList).1 (by decide)

/-- C4 (confirmed): the gate returns exactly `dkim_passed OR NOT
dkim_works[from_domain]`, and in a state where dkim_works holds for the
sender's domain a message whose filtered authres list is non-empty and free of
`Passed` entries is refused. -/
theorem claim_C4_dkim_stickiness (s : State)
    (authres : List (List Char × DkimResult)) (fromDomain : List Char) :
    ((shouldAllowKeychange s authres fromDomain).1 =
      (dkimPassedOf s authres || !dkimWorks s fromDomain)) ∧
    (dkimWorks s fromDomain = true →
      authres.filter (fun e => decide (e.1 ∈ s.authservidCandidates)) ≠ [] →
      (∀ e ∈ authres.filter (fun e => decide (e.1 ∈ s.authservidCandidates)),
        e.2 ≠ DkimResult.Passed) →
      (shouldAllowKeychange s authres fromDomain).1 = false) := by
  refine ⟨rfl, fun hw hne hnp => ?_⟩
  rw [shouldAllow_fst, hw]
  have hp : dkimPassedOf s authres = false := by
    have hempty : (authres.filter
        (fun e => decide (e.1 ∈ s.authservidCandidates))).isEmpty = false := by
      cases hfe : authres.filter
          (fun e => decide (e.1 ∈ s.authservidCandidates)) with
      | nil => exact absurd hfe hne
      | cons a t => rfl
    show (if (authres.filter
          (fun e => decide (e.1 ∈ s.authservidCandidates))).isEmpty = true
        then true
        else scanDkim (authres.filter
          (fun e => decide (e.1 ∈ s.authservidCandidates)))) = false
    rw [hempty]
    simp only [Bool.false_eq_true, if_false]
    exact scanDkim_eq_false _ hnp
  rw [hp]
  rfl

/-- Witness for C4: dkim_works is set for x.y, the single retained entry is a
fail from the candidate authserv-id, and the keychange is refused. -/
theorem claim_C4_witness :
    (shouldAllowKeychange
        { authservidCandidates := {"mx.x".toList},
          sendingDomains := [("x.y".toList, true)] }
        [("mx.x".toList, DkimResult.Failed)] "x.y".toList).1 = false :=
  (claim_C4_dkim_stickiness
    { authservidCandidates := {"mx.x".toList},
      sendingDomains := [("x.y".toList, true)] }
    [("mx.x".toList, DkimResult.Failed)] "x.y".toList).2
    (by decide) (by decide) (by decide)

/-- C1 (confirmed): adding extra Authentication-Results headers whose
authserv-ids lie outside the current candidate set to a message does not
change the keychange verdict of `handle_authres` — the verdict on the message
with the extra foreign-id headers equals the verdict on the message without
them, for every store state. -/
theorem claim_C1_attacker_resistance (s : State) (fromDomain : List Char)
    (base extra merged : List (List Char))
    (hmix : Interleave base extra merged)
    (hforeign : ∀ h ∈ extra,
      authservIdOf (removeComments h) ∉ s.authservidCandidates) :
    (handleAuthres s merged fromDomain).1
      = (handleAuthres s base fromDomain).1 := by
  simp only [handleAuthres]
  have hIL : Interleave (parseAuthresHeaders base fromDomain)
      (parseAuthresHeaders extra fromDomain)
      (parseAuthresHeaders merged fromDomain) :=
    Interleave.map (fun hv => parseAuthresHeader hv fromDomain) hmix
  have hEid : ∀ e ∈ parseAuthresHeaders extra fromDomain,
      e.1 ∉ s.authservidCandidates := by
    intro e he
    rcases List.mem_map.mp he with ⟨h, hh, rfl⟩
    simpa [parseAuthresHeader] using hforeign h hh
  set B := parseAuthresHeaders base fromDomain with hBdef
  set E := parseAuthresHeaders extra fromDomain with hEdef
  set A := parseAuthresHeaders merged fromDomain with hAdef
  have hNA : ((A.map Prod.fst).toFinset : Finset (List Char)) =
      (B.map Prod.fst).toFinset ∪ (E.map Prod.fst).toFinset :=
    hIL.toFinset_map Prod.fst
  have hdisjE :
      s.authservidCandidates ∩ (E.map Prod.fst).toFinset = ∅ := by
    rw [Finset.eq_empty_iff_forall_not_mem]
    intro a ha
    rcases Finset.mem_inter.mp ha with ⟨ha1, ha2⟩
    rcases List.mem_map.mp (List.mem_toFinset.mp ha2) with ⟨e, heE, rfl⟩
    exact hEid e heE ha1
  by_cases hBnil : B = []
  · have hrhs : (shouldAllowKeychange (updateAuthservidCandidates s B) B
        fromDomain).1 = true := by
      rw [hBnil, update_nil s [] (by simp), shouldAllow_fst]
      simp [dkimPassedOf]
    have hAE : A = E := by
      rw [hBnil] at hIL
      exact hIL.nil_left
    by_cases hEnil : E = []
    · rw [hAE, hEnil, hBnil]
    · have hNE : ((E.map Prod.fst).toFinset : Finset (List Char)) ≠ ∅ := by
        simp only [ne_eq, List.toFinset_eq_empty_iff, List.map_eq_nil_iff]
        exact hEnil
      have hupd : updateAuthservidCandidates s A =
          { authservidCandidates := (E.map Prod.fst).toFinset,
            sendingDomains := [] } := by
        rw [hAE]
        exact update_reset s E hNE hdisjE
      rw [hupd, hrhs, verdict_true_of_sd_nil _ _ _ rfl]
  · have hNB : ((B.map Prod.fst).toFinset : Finset (List Char)) ≠ ∅ := by
      simp only [ne_eq, List.toFinset_eq_empty_iff, List.map_eq_nil_iff]
      exact hBnil
    have hIA : s.authservidCandidates ∩ (A.map Prod.fst).toFinset =
        s.authservidCandidates ∩ (B.map Prod.fst).toFinset := by
      rw [hNA, Finset.inter_union_distrib_left, hdisjE, Finset.union_empty]
    by_cases hI : s.authservidCandidates ∩ (B.map Prod.fst).toFinset = ∅
    · have hNAne : ((A.map Prod.fst).toFinset : Finset (List Char)) ≠ ∅ := by
        rw [hNA]
        intro h
        exact hNB (Finset.subset_empty.mp (h ▸ Finset.subset_union_left))
      have h1 := update_reset s A hNAne (by rw [hIA]; exact hI)
      have h2 := update_reset s B hNB hI
      rw [h1, h2, verdict_true_of_sd_nil _ _ _ rfl,
        verdict_true_of_sd_nil _ _ _ rfl]
    · have h1 := update_inter s A (by rw [hIA]; exact hI)
      have h2 := update_inter s B hI
      rw [hIA] at h1
      have hstate : updateAuthservidCandidates s A
          = updateAuthservidCandidates s B := by rw [h1, h2]
      rw [hstate]
      have hcand : (updateAuthservidCandidates s B).authservidCandidates =
          s.authservidCandidates ∩ (B.map Prod.fst).toFinset := by
        rw [h2]
        by_cases hc : s.authservidCandidates ≠
            s.authservidCandidates ∩ (B.map Prod.fst).toFinset
        · rw [if_pos hc]
        · rw [if_neg hc]
          exact not_ne_iff.mp hc
      have hfilter : A.filter (fun e => decide (e.1 ∈
            (updateAuthservidCandidates s B).authservidCandidates)) =
          B.filter (fun e => decide (e.1 ∈
            (updateAuthservidCandidates s B).authservidCandidates)) := by
        apply hIL.filter_eq
        intro e heE
        rw [decide_eq_false_iff_not, hcand]
        intro hmem
        exact hEid e heE (Finset.mem_inter.mp hmem).1
      have hdp : dkimPassedOf (updateAuthservidCandidates s B) A
          = dkimPassedOf (updateAuthservidCandidates s B) B := by
        show (if (A.filter (fun e => decide (e.1 ∈
              (updateAuthservidCandidates s B).authservidCandidates))).isEmpty
              = true
            then true else scanDkim (A.filter (fun e => decide (e.1 ∈
              (updateAuthservidCandidates s B).authservidCandidates))))
          = (if (B.filter (fun e => decide (e.1 ∈
              (updateAuthservidCandidates s B).authservidCandidates))).isEmpty
              = true
            then true else scanDkim (B.filter (fun e => decide (e.1 ∈
              (updateAuthservidCandidates s B).authservidCandidates))))
        rw [hfilter]
      rw [shouldAllow_fst, shouldAllow_fst, hdp]

/-- Witness for C1: candidates start as mx.x with a recorded dkim_works for
x.y; the attacker appends a failing header under the foreign id evil.com, and
the verdict matches the verdict of the untampered message. -/
theorem claim_C1_witness :
    Interleave ["mx.x; dkim=pass header.d=x.y".toList]
      ["evil.com; dkim=fail".toList]
      ["mx.x; dkim=pass header.d=x.y".toList,
       "evil.com; dkim=fail".toList] ∧
    (handleAuthres
        { authservidCandidates := {"mx.x".toList},
          sendingDomains := [("x.y".toList, true)] }
        ["mx.x; dkim=pass header.d=x.y".toList,
         "evil.com; dkim=fail".toList] "x.y".toList).1
      = (handleAuthres
        { authservidCandidates := {"mx.x".toList},
          sendingDomains := [("x.y".toList, true)] }
        ["mx.x; dkim=pass header.d=x.y".toList] "x.y".toList).1 :=
  ⟨Interleave.left (Interleave.right Interleave.nil),
    claim_C1_attacker_resistance
      { authservidCandidates := {"mx.x".toList},
        sendingDomains := [("x.y".toList, true)] }
      "x.y".toList
      ["mx.x; dkim=pass header.d=x.y".toList]
      ["evil.com; dkim=fail".toList]
      ["mx.x; dkim=pass header.d=x.y".toList,
       "evil.com; dkim=fail".toList]
      (Interleave.left (Interleave.right Interleave.nil))
      (by decide)⟩

end AuthresClaims

namespace Snapshot

/-- Writer flattening: a fold of writer steps that each append a fixed
function of the row equals the flat concatenation. -/
theorem foldl_writer {α : Type} (f : List Nat → α → List Nat)
    (g : α → List Nat) (hf : ∀ w a, f w a = w ++ g a) :
    ∀ (rows : List α) (w0 : List Nat),
      rows.foldl f w0 = w0 ++ rows.flatMap g := by
  intro rows
  induction rows with
  | nil => intro w0; simp
  | cons a t ih =>
    intro w0
    simp only [List.foldl_cons, List.flatMap_cons, hf]
    rw [ih]
    simp [List.append_assoc]

/-- `write_str`/`write_bytes` append one flat string line. -/
theorem writeStrW_eq (w s : List Nat) : writeStrW w s = w ++ bencStrLine s := by
  simp [writeStrW, writeBytesW, bencStrLine, List.append_assoc]

/-- One contact row of the writer is the flat row bytes. -/
theorem contactRowW_eq (w : List Nat) (c : Contact) :
    contactRowW w c = w ++ contactRowBytes c := by
  rcases c with ⟨i, nm, ad, origin, bl, ls, pa, an, sa, status⟩
  cases origin <;> cases status <;>
    simp [contactRowW, contactRowBytes, writeStrW, writeBytesW, writeU32W,
      writeI64W, writeBoolW, bencStrLine, bencU32Line, bencI64Line,
      bencBoolLine, List.append_assoc] <;>
    split_ifs <;>
    simp [List.append_assoc]

/-- One chat row of the writer is the flat row bytes. -/
theorem chatRowW_eq (w : List Nat) (c : Chat) :
    chatRowW w c = w ++ chatRowBytes c := by
  rcases c with ⟨i, typ⟩
  cases typ <;>
    simp [chatRowW, chatRowBytes, writeStrW, writeBytesW, writeU32W,
      bencStrLine, bencU32Line, List.append_assoc]

/-- One keypair row of the writer is the flat row bytes. -/
theorem keypairRowW_eq (w : List Nat) (k : Keypair) :
    keypairRowW w k = w ++ keypairRowBytes k := by
  simp [keypairRowW, keypairRowBytes, writeStrW, writeBytesW, writeU32W,
    writeI64W, writeBoolW, bencStrLine, bencU32Line, bencI64Line,
    bencBoolLine, List.append_assoc]

set_option maxHeartbeats 2000000 in
/-- One message row of the writer is the flat row bytes. -/
theorem msgRowW_eq (w : List Nat) (m : Msg) :
    msgRowW w m = w ++ msgRowBytes m := by
  rcases m with ⟨i, rf, ch, fr, t0, ts, ty, st, mm, by0, tx, tr, pa, tse, tsr,
    hi, mh, mi, mr, lo⟩
  cases mi <;> cases mr <;>
    simp [msgRowW, msgRowBytes, writeStrW, writeBytesW, writeI64W,
      bencStrLine, bencI64Line, List.append_assoc]

/-- One mdn row of the writer is the flat row bytes. -/
theorem mdnRowW_eq (w : List Nat) (m : Mdn) :
    mdnRowW w m = w ++ mdnRowBytes m := by
  simp [mdnRowW, mdnRowBytes, writeStrW, writeBytesW, writeU32W, writeI64W,
    bencStrLine, bencU32Line, bencI64Line, List.append_assoc]

/-- Config section flattening. -/
theorem serializeConfigW_eq (w : List Nat)
    (rows : List (List Nat × List Nat)) :
    serializeConfigW w rows = w ++ configSectionBytes rows := by
  unfold serializeConfigW configSectionBytes
  rw [foldl_writer _ (fun kv => bencStrLine kv.1 ++ bencStrLine kv.2)
    (fun w kv => by simp [writeStrW, writeBytesW, bencStrLine,
      List.append_assoc])]
  simp [List.append_assoc]

/-- Contacts section flattening. -/
theorem serializeContactsW_eq (w : List Nat) (rows : List Contact) :
    serializeContactsW w rows = w ++ contactsSectionBytes rows := by
  unfold serializeContactsW contactsSectionBytes
  rw [foldl_writer _ _ contactRowW_eq]
  simp [List.append_assoc]

/-- Chats section flattening. -/
theorem serializeChatsW_eq (w : List Nat) (rows : List Chat) :
    serializeChatsW w rows = w ++ chatsSectionBytes rows := by
  unfold serializeChatsW chatsSectionBytes
  rw [foldl_writer _ _ chatRowW_eq]
  simp [List.append_assoc]

/-- Leftgroups section flattening. -/
theorem serializeLeftgroupsW_eq (w : List Nat) (rows : List (List Nat)) :
    serializeLeftgroupsW w rows = w ++ leftgroupsSectionBytes rows := by
  unfold serializeLeftgroupsW leftgroupsSectionBytes
  rw [foldl_writer _ _ writeStrW_eq]
  simp [List.append_assoc]

/-- Keypairs section flattening. -/
theorem serializeKeypairsW_eq (w : List Nat) (rows : List Keypair) :
    serializeKeypairsW w rows = w ++ keypairsSectionBytes rows := by
  unfold serializeKeypairsW keypairsSectionBytes
  rw [foldl_writer _ _ keypairRowW_eq]
  simp [List.append_assoc]

/-- Messages section flattening. -/
theorem serializeMessagesW_eq (w : List Nat) (rows : List Msg) :
    serializeMessagesW w rows = w ++ messagesSectionBytes rows := by
  unfold serializeMessagesW messagesSectionBytes
  rw [foldl_writer _ _ msgRowW_eq]
  simp [List.append_assoc]

/-- Mdns section flattening. -/
theorem serializeMdnsW_eq (w : List Nat) (rows : List Mdn) :
    serializeMdnsW w rows = w ++ mdnsSectionBytes rows := by
  unfold serializeMdnsW mdnsSectionBytes
  rw [foldl_writer _ _ mdnRowW_eq]
  simp [List.append_assoc]

/-- C7 (amended): the encoder emits a top-level dictionary whose keys appear
in exactly the order `config, contacts, chats, leftgroups, keypairs,
messages, mdns`, each key a length-prefixed string followed by its section
payload; the `config` section is the dictionary of exactly the rows of the
`config` table (so it contains `dbversion` only when the table does). -/
theorem claim_C7_encoder_key_order (store : Store) :
    Encoder.serialize store =
      [100, 10]
      ++ bencStrLine (strBytes "config") ++ configSectionBytes store.config
      ++ bencStrLine (strBytes "contacts")
        ++ contactsSectionBytes store.contacts
      ++ bencStrLine (strBytes "chats") ++ chatsSectionBytes store.chats
      ++ bencStrLine (strBytes "leftgroups")
        ++ leftgroupsSectionBytes store.leftgrps
      ++ bencStrLine (strBytes "keypairs")
        ++ keypairsSectionBytes store.keypairs
      ++ bencStrLine (strBytes "messages") ++ messagesSectionBytes store.msgs
      ++ bencStrLine (strBytes "mdns") ++ mdnsSectionBytes store.msgs_mdns
      ++ [101, 10] := by
  simp only [Encoder.serialize, writeStrW_eq, serializeConfigW_eq,
    serializeContactsW_eq, serializeChatsW_eq, serializeLeftgroupsW_eq,
    serializeKeypairsW_eq, serializeMessagesW_eq, serializeMdnsW_eq,
    List.nil_append, List.append_assoc]

/-- C7 counterexample: the claimed key list starts with `_config` and claims
a mandatory `dbversion` entry, but the bytes `_config` and `dbversion` occur
nowhere in the encoder's output for the empty store. -/
theorem claim_C7_counterexample :
    occursSeq (strBytes "_config") (Encoder.serialize emptyStore) = false ∧
    occursSeq (strBytes "dbversion") (Encoder.serialize emptyStore) = false :=
  by decide

/-- C8 (code bug): the stream `de` yields the tokens Dictionary, End, but
inserting a literal newline byte between the two tokens makes the tokenizer
fail with "unexpected byte": the source's `next_token` has no arm consuming
newlines, so they are fatal rather than skipped. -/
theorem claim_C8_newline_fatal :
    tokenize [100, 101]
      = Except.ok [BencodeToken.Dictionary, BencodeToken.End] ∧
    nextToken [100, 10, 101]
      = Except.ok (some (BencodeToken.Dictionary, [10, 101])) ∧
    tokenize [100, 10, 101] = Except.error "unexpected byte" ∧
    nextToken [10, 101] = Except.error "unexpected byte" :=
  ⟨rfl, rfl, rfl, rfl⟩

/-- C6 (code bug): decoding the encoder's own output of the S6 store into an
empty store fails (already at the newline after the top-level `d`; the
encoder also writes the key `config` where the decoder demands `_config`, and
the decoder's contacts section is skip-only), and the store afterwards is
still the empty store, which differs from the S6 store in both the `_config`
and the `contacts` section — the decode-after-encode round trip reproduces
neither. -/
theorem claim_C6_no_roundtrip :
    (Sql.deserialize emptyStore (Encoder.serialize s6Store)).1.isOk = false ∧
    (Sql.deserialize emptyStore (Encoder.serialize s6Store)).2 = emptyStore ∧
    emptyStore.config ≠ s6Store.config ∧
    emptyStore.contacts ≠ s6Store.contacts :=
  ⟨rfl, rfl, by decide, by decide⟩

/-- A fueled decimal of zero is empty for every fuel. -/
theorem natDecimalAux_zero (fuel : Nat) : natDecimalAux fuel 0 = [] := by
  cases fuel <;> simp [natDecimalAux]

/-- Every byte of a fueled decimal is an ASCII digit. -/
theorem natDecimalAux_bounds :
    ∀ (fuel n : Nat), ∀ b ∈ natDecimalAux fuel n, 48 ≤ b ∧ b ≤ 57 := by
  intro fuel
  induction fuel with
  | zero => intro n b hb; simp [natDecimalAux] at hb
  | succ f ih =>
    intro n b hb
    by_cases hn : n = 0
    · simp [natDecimalAux, hn] at hb
    · simp only [natDecimalAux, if_neg hn, List.mem_append,
        List.mem_singleton] at hb
      rcases hb with hb | hb
      · exact ih _ b hb
      · have hm : n % 10 < 10 := Nat.mod_lt n (by norm_num)
        omega

/-- Every byte of `natDecimal` is an ASCII digit. -/
theorem natDecimal_bounds (n : Nat) :
    ∀ b ∈ natDecimal n, 48 ≤ b ∧ b ≤ 57 := by
  intro b hb
  unfold natDecimal at hb
  by_cases hn : n = 0
  · rw [if_pos hn] at hb
    simp at hb
    omega
  · rw [if_neg hn] at hb
    exact natDecimalAux_bounds n n b hb

/-- `natDecimal` is never empty. -/
theorem natDecimal_ne_nil (n : Nat) : natDecimal n ≠ [] := by
  unfold natDecimal
  by_cases hn : n = 0
  · simp [hn]
  · rw [if_neg hn]
    rcases Nat.exists_eq_succ_of_ne_zero hn with ⟨m, rfl⟩
    simp [natDecimalAux]

/-- The digit parser distributes over append. -/
theorem parseDigitsGo_append (xs ys : List Nat) :
    ∀ acc, parseDigitsGo acc (xs ++ ys)
      = (parseDigitsGo acc xs).bind (fun a => parseDigitsGo a ys) := by
  induction xs with
  | nil => intro acc; rfl
  | cons b t ih =>
    intro acc
    simp only [List.cons_append, parseDigitsGo]
    by_cases hb : 48 ≤ b ∧ b ≤ 57
    · rw [if_pos hb, if_pos hb]
      exact ih _
    · rw [if_neg hb, if_neg hb]
      rfl

/-- Parsing the fueled decimal of a positive number recovers the number,
shifted past the accumulator. -/
theorem natDecimalAux_spec :
    ∀ (fuel n acc : Nat), 0 < n → n ≤ fuel →
      parseDigitsGo acc (natDecimalAux fuel n)
        = some (acc * 10 ^ (natDecimalAux fuel n).length + n) := by
  intro fuel
  induction fuel with
  | zero => intro n acc h1 h2; omega
  | succ f ih =>
    intro n acc h1 h2
    have hn : n ≠ 0 := by omega
    have hm : n % 10 < 10 := Nat.mod_lt n (by norm_num)
    by_cases h10 : n / 10 = 0
    · have hlt : n < 10 := by omega
      have hmod : n % 10 = n := by omega
      simp only [natDecimalAux, if_neg hn, h10, natDecimalAux_zero,
        List.nil_append]
      simp only [parseDigitsGo, if_pos (by omega : 48 ≤ 48 + n % 10 ∧
        48 + n % 10 ≤ 57)]
      simp only [List.length_singleton, pow_one, Option.some.injEq]
      omega
    · have h10p : 0 < n / 10 := Nat.pos_of_ne_zero h10
      have h10le : n / 10 ≤ f := by
        have hd : n / 10 < n := Nat.div_lt_self h1 (by norm_num)
        omega
      simp only [natDecimalAux, if_neg hn]
      rw [parseDigitsGo_append, ih (n / 10) acc h10p h10le,
        Option.some_bind]
      simp only [parseDigitsGo, if_pos (show 48 ≤ 48 + n % 10 ∧
        48 + n % 10 ≤ 57 by omega)]
      simp only [List.length_append, List.length_singleton,
        Option.some.injEq]
      have hdm : 10 * (n / 10) + n % 10 = n := Nat.div_add_mod n 10
      have h48 : 48 + n % 10 - 48 = n % 10 := by omega
      rw [h48, pow_succ]
      calc (acc * 10 ^ (natDecimalAux f (n / 10)).length + n / 10) * 10
            + n % 10
          = acc * (10 ^ (natDecimalAux f (n / 10)).length * 10)
            + (10 * (n / 10) + n % 10) := by ring
        _ = acc * (10 ^ (natDecimalAux f (n / 10)).length * 10) + n := by
            rw [hdm]

/-- Parsing the decimal render of any number recovers the number. -/
theorem parseDigits_natDecimal (n : Nat) :
    parseDigits (natDecimal n) = some n := by
  by_cases hn : n = 0
  · subst hn; rfl
  · have h0 : 0 < n := Nat.pos_of_ne_zero hn
    have hspec := natDecimalAux_spec n n 0 h0 (le_refl n)
    unfold natDecimal
    rw [if_neg hn]
    cases hD : natDecimalAux n n with
    | nil =>
      rw [hD] at hspec
      simp [parseDigitsGo] at hspec
      omega
    | cons d ds =>
      rw [hD] at hspec
      show parseDigitsGo 0 (d :: ds) = some n
      rw [hspec]
      simp

/-- Parsing a decimal render as usize succeeds below 2^64 and overflows
above. -/
theorem parseUsize_natDecimal (n : Nat) :
    parseUsize (natDecimal n) = if n < 2 ^ 64 then some n else none := by
  cases hD : natDecimal n with
  | nil => exact absurd hD (natDecimal_ne_nil n)
  | cons d ds =>
    have hmem : d ∈ natDecimal n := by
      rw [hD]; exact List.mem_cons_self d ds
    have hb := natDecimal_bounds n d hmem
    have hparse := parseDigits_natDecimal n
    rw [hD] at hparse
    simp only [parseUsize, if_neg (show ¬ d = 43 by omega)]
    rw [show parseDigits (d :: ds) = parseDigitsGo 0 (d :: ds) from rfl] at hparse
    show (parseDigitsGo 0 (d :: ds)).bind _ = _
    rw [hparse, Option.some_bind]

/-- `read_until` consumes exactly through the first delimiter. -/
theorem readUntil_append (delim : Nat) (xs rest : List Nat)
    (hxs : delim ∉ xs) :
    readUntil delim (xs ++ delim :: rest) = (xs ++ [delim], rest) := by
  induction xs with
  | nil => simp [readUntil]
  | cons b t ih =>
    have hb : b ≠ delim := fun hc => hxs (hc ▸ List.mem_cons_self b t)
    have ht : delim ∉ t := fun hc => hxs (List.mem_cons_of_mem _ hc)
    simp [readUntil, hb, ih ht]

/-- Tokenizing a canonical byte-string token yields the byte-string and the
rest of the stream (or the overflow error for an astronomically long
payload). -/
theorem nextToken_strEnc (b rest : List Nat) :
    nextToken (strEnc b ++ rest) =
      if b.length < 2 ^ 64 then
        Except.ok (some (BencodeToken.ByteString b, rest))
      else Except.error "cannot parse length prefix" := by
  cases hD : natDecimal b.length with
  | nil => exact absurd hD (natDecimal_ne_nil _)
  | cons d ds =>
    have hmem : d ∈ natDecimal b.length := by
      rw [hD]; exact List.mem_cons_self d ds
    have hb := natDecimal_bounds _ d hmem
    have hds : ∀ x ∈ d :: ds, 48 ≤ x ∧ x ≤ 57 := by
      intro x hx
      apply natDecimal_bounds b.length x
      rw [hD]; exact hx
    have hshape : strEnc b ++ rest = d :: (ds ++ 58 :: (b ++ rest)) := by
      simp [strEnc, hD, List.append_assoc]
    rw [hshape]
    have hnot58 : 58 ∉ (d :: ds) := by
      intro hx
      have := hds 58 hx
      omega
    have hread : readUntil 58 (d :: (ds ++ 58 :: (b ++ rest)))
        = ((d :: ds) ++ [58], b ++ rest) := by
      have h := readUntil_append 58 (d :: ds) (b ++ rest) hnot58
      simpa using h
    have hdrop : (((d :: ds) ++ [58]).dropLast) = d :: ds :=
      List.dropLast_concat
    simp only [nextToken, if_neg (show ¬ d = 101 by omega),
      if_neg (show ¬ d = 108 by omega), if_neg (show ¬ d = 100 by omega),
      if_neg (show ¬ d = 105 by omega),
      if_pos (show 48 ≤ d ∧ d ≤ 57 from hb)]
    rw [hread]
    show (match parseUsize (((d :: ds) ++ [58]).dropLast) with
      | some size =>
        if size ≤ (b ++ rest).length then
          Except.ok (some (BencodeToken.ByteString ((b ++ rest).take size),
            (b ++ rest).drop size))
        else Except.error "error while reading a string"
      | none => Except.error "cannot parse length prefix") = _
    rw [hdrop, ← hD, parseUsize_natDecimal]
    by_cases hlen : b.length < 2 ^ 64
    · rw [if_pos hlen, if_pos hlen]
      show (if b.length ≤ (b ++ rest).length then _ else _) = _
      rw [if_pos (by simp)]
      simp [List.take_left, List.drop_left]
    · rw [if_neg hlen, if_neg hlen]

/-- `expect_string` on a canonical byte-string token. -/
theorem expectString_strEnc (b rest : List Nat)
    (hlen : b.length < 2 ^ 64) :
    expectString (strEnc b ++ rest) = Except.ok (b, rest) := by
  unfold expectString expectToken
  rw [nextToken_strEnc, if_pos hlen]

/-- `expect_key` on a canonical byte-string token holding the expected key. -/
theorem expectKey_strEnc (k rest : List Nat) (hlen : k.length < 2 ^ 64) :
    expectKey k (strEnc k ++ rest) = Except.ok rest := by
  unfold expectKey expectToken
  rw [nextToken_strEnc, if_pos hlen]
  simp

/-- `expect_token` on a canonical byte-string token. -/
theorem expectToken_strEnc (b rest : List Nat) (hlen : b.length < 2 ^ 64) :
    expectToken (strEnc b ++ rest)
      = Except.ok (BencodeToken.ByteString b, rest) := by
  unfold expectToken
  rw [nextToken_strEnc, if_pos hlen]

/-- `expect_token` at an end token. -/
theorem expectToken_end (t : List Nat) :
    expectToken (101 :: t) = Except.ok (BencodeToken.End, t) := rfl

/-- `expect_dictionary` at a dictionary token. -/
theorem expectDictionary_cons (t : List Nat) :
    expectDictionary (100 :: t) = Except.ok t := rfl

/-- Each encoded pair occupies at least one byte. -/
theorem pairsFlat_length (pairs : List (List Nat × List Nat)) :
    pairs.length ≤ (pairsFlat pairs).length := by
  induction pairs with
  | nil => simp [pairsFlat]
  | cons kv ps ih =>
    have h1 : 1 ≤ (strEnc kv.1).length := by
      simp [strEnc, List.length_append]
      omega
    simp only [pairsFlat, List.flatMap_cons, List.length_append,
      List.length_cons] at *
    omega

/-- One unfolding of the `deserialize_config` loop over a canonically encoded
key/value pair. -/
theorem deserializeConfigLoopStep (f : Nat) (tx : Store) (found : Bool)
    (k v X : List Nat) (hk : k.length < 2 ^ 64) (hv : v.length < 2 ^ 64) :
    deserializeConfigLoop (f + 1) tx found (strEnc k ++ (strEnc v ++ X))
      = if k = dbversionBytes then
          (if found then
            Except.error "dbversion key found twice in the config"
          else if v ≠ v99Bytes then
            Except.error "unsupported serialized database version"
          else deserializeConfigLoop f
            { tx with config := tx.config ++ [(k, v)] } true X)
        else deserializeConfigLoop f
          { tx with config := tx.config ++ [(k, v)] } found X := by
  simp only [deserializeConfigLoop, expectToken_strEnc k _ hk,
    expectString_strEnc v _ hv]

/-- Error analysis of the `deserialize_config` loop: starting from a
not-yet-found flag, a pair list that either contains no `dbversion` key at
all or contains a `dbversion` pair whose value is not "99" always ends in an
error — missing key, wrong value, or duplicate key.  The invariant carried
through the recursion also covers the found-flag-set state, which still has a
duplicate `dbversion` pair ahead. -/
theorem deserializeConfigLoop_err :
    ∀ (pairs : List (List Nat × List Nat)) (fuel : Nat) (tx : Store)
      (found : Bool) (rest : List Nat),
      pairs.length + 1 ≤ fuel →
      ((found = false ∧ ((∀ kv ∈ pairs, kv.1 ≠ dbversionBytes) ∨
          (∃ kv ∈ pairs, kv.1 = dbversionBytes ∧ kv.2 ≠ v99Bytes))) ∨
        (found = true ∧ ∃ kv ∈ pairs, kv.1 = dbversionBytes)) →
      ∃ e, deserializeConfigLoop fuel tx found
          (pairsFlat pairs ++ 101 :: rest) = Except.error e := by
  intro pairs
  induction pairs with
  | nil =>
    intro fuel tx found rest hfuel hinv
    obtain ⟨f, rfl⟩ : ∃ f, fuel = f + 1 := ⟨fuel - 1, by omega⟩
    simp only [pairsFlat, List.flatMap_nil, List.nil_append]
    rcases hinv with ⟨hf, _⟩ | ⟨_, kv, hkv, _⟩
    · subst hf
      refine ⟨"no dbversion found in the config", ?_⟩
      simp [deserializeConfigLoop, expectToken_end]
    · exact absurd hkv (List.not_mem_nil kv)
  | cons kv0 ps ih =>
    intro fuel tx found rest hfuel hinv
    obtain ⟨f, rfl⟩ : ∃ f, fuel = f + 1 := ⟨fuel - 1, by omega⟩
    obtain ⟨k, v⟩ := kv0
    have hshape : pairsFlat ((k, v) :: ps) ++ 101 :: rest
        = strEnc k ++ (strEnc v ++ (pairsFlat ps ++ 101 :: rest)) := by
      simp [pairsFlat, List.append_assoc]
    rw [hshape]
    by_cases hk : k.length < 2 ^ 64
    · by_cases hv : v.length < 2 ^ 64
      · rw [deserializeConfigLoopStep f tx found k v _ hk hv]
        by_cases hkd : k = dbversionBytes
        · rw [if_pos hkd]
          cases found with
          | true =>
            rcases hinv with ⟨hcontra, _⟩ | _
            · exact absurd hcontra (by simp)
            · exact ⟨"dbversion key found twice in the config", by simp⟩
          | false =>
            rcases hinv with ⟨_, hH⟩ | ⟨hcontra, _⟩
            · rcases hH with hnone | ⟨kv2, hkv2mem, hkv2key, hkv2val⟩
              · exact absurd hkd (hnone (k, v) (List.mem_cons_self _ _))
              · by_cases hv99 : v = v99Bytes
                · have hkv2ps : kv2 ∈ ps := by
                    rcases List.mem_cons.mp hkv2mem with heq | hin
                    · exfalso
                      rw [heq] at hkv2val
                      exact hkv2val (by simp [hv99])
                    · exact hin
                  have hrec := ih f
                    { tx with config := tx.config ++ [(k, v)] } true rest
                    (by simp at hfuel; omega)
                    (Or.inr ⟨rfl, kv2, hkv2ps, hkv2key⟩)
                  simpa [hv99] using hrec
                · refine ⟨"unsupported serialized database version", ?_⟩
                  simp [hv99]
            · exact absurd hcontra (by simp)
        · rw [if_neg hkd]
          have hinv2 :
              ((found = false ∧ ((∀ kv ∈ ps, kv.1 ≠ dbversionBytes) ∨
                  (∃ kv ∈ ps, kv.1 = dbversionBytes ∧ kv.2 ≠ v99Bytes))) ∨
                (found = true ∧ ∃ kv ∈ ps, kv.1 = dbversionBytes)) := by
            rcases hinv with ⟨hf, hH⟩ | ⟨hf, kv2, hmem, hkey⟩
            · refine Or.inl ⟨hf, ?_⟩
              rcases hH with hnone | ⟨kv2, hmem, hkey, hval⟩
              · exact Or.inl
                  (fun kv hkv => hnone kv (List.mem_cons_of_mem _ hkv))
              · refine Or.inr ⟨kv2, ?_, hkey, hval⟩
                rcases List.mem_cons.mp hmem with heq | hin
                · exact absurd (heq ▸ hkey) (by simpa [heq] using hkd)
                · exact hin
            · refine Or.inr ⟨hf, kv2, ?_, hkey⟩
              rcases List.mem_cons.mp hmem with heq | hin
              · exact absurd (heq ▸ hkey) (by simpa [heq] using hkd)
              · exact hin
          exact ih f { tx with config := tx.config ++ [(k, v)] } found rest
            (by simp at hfuel; omega) hinv2
      · refine ⟨"cannot parse length prefix", ?_⟩
        simp only [deserializeConfigLoop, expectToken_strEnc k _ hk]
        unfold expectString expectToken
        rw [nextToken_strEnc, if_neg hv]
    · refine ⟨"cannot parse length prefix", ?_⟩
      simp only [deserializeConfigLoop]
      unfold expectToken
      rw [nextToken_strEnc, if_neg hk]

/-- The store returned by `Sql::deserialize` is always the input store (the
transaction is dropped without commit). -/
theorem sqlDeserialize_snd (store : Store) (r : List Nat) :
    (Sql.deserialize store r).2 = store := by
  unfold Sql.deserialize
  cases Decoder.deserialize (r.length + 1) store r <;> rfl

/-- C5 (confirmed): for every store and every snapshot stream whose `_config`
section consists of key/value pairs that either omit `dbversion` entirely or
carry a `dbversion` pair whose value differs from "99", `Sql::deserialize`
returns an error and the store is completely unchanged (the write transaction
is dropped without commit).  The stream is the canonical token encoding of
the section followed by arbitrary remaining bytes. -/
theorem claim_C5_snapshot_rejection (store : Store)
    (pairs : List (List Nat × List Nat)) (rest : List Nat)
    (hdb : (∀ kv ∈ pairs, kv.1 ≠ dbversionBytes) ∨
      (∃ kv ∈ pairs, kv.1 = dbversionBytes ∧ kv.2 ≠ v99Bytes)) :
    (Sql.deserialize store (100 :: (strEnc (strBytes "_config")
        ++ (100 :: (pairsFlat pairs ++ 101 :: rest))))).1.isOk = false ∧
    (Sql.deserialize store (100 :: (strEnc (strBytes "_config")
        ++ (100 :: (pairsFlat pairs ++ 101 :: rest))))).2 = store := by
  refine ⟨?_, sqlDeserialize_snd _ _⟩
  obtain ⟨e, he⟩ := deserializeConfigLoop_err pairs
    ((100 :: (strEnc (strBytes "_config")
      ++ (100 :: (pairsFlat pairs ++ 101 :: rest)))).length + 1)
    store false rest
    (by
      have hfl := pairsFlat_length pairs
      simp only [List.length_cons, List.length_append]
      omega)
    (Or.inl ⟨rfl, hdb⟩)
  have hkey : expectKey (strBytes "_config")
      (strEnc (strBytes "_config")
        ++ (100 :: (pairsFlat pairs ++ 101 :: rest)))
      = Except.ok (100 :: (pairsFlat pairs ++ 101 :: rest)) :=
    expectKey_strEnc _ _ (by decide)
  have hcfg : deserializeConfig
      ((100 :: (strEnc (strBytes "_config")
        ++ (100 :: (pairsFlat pairs ++ 101 :: rest)))).length + 1) store
      (100 :: (pairsFlat pairs ++ 101 :: rest)) = Except.error e := by
    unfold deserializeConfig
    rw [expectDictionary_cons]
    exact he
  have hdec : Decoder.deserialize
      ((100 :: (strEnc (strBytes "_config")
        ++ (100 :: (pairsFlat pairs ++ 101 :: rest)))).length + 1) store
      (100 :: (strEnc (strBytes "_config")
        ++ (100 :: (pairsFlat pairs ++ 101 :: rest)))) = Except.error e := by
    unfold Decoder.deserialize
    rw [expectDictionary_cons]
    simp only [Except.bind]
    rw [hkey]
    simp only [Except.bind]
    rw [hcfg]
  unfold Sql.deserialize
  rw [hdec]
  rfl

/-- Witness for C5: a snapshot whose config section is exactly
`dbversion = "98"` is rejected and the empty store stays empty. -/
theorem claim_C5_witness :
    (Sql.deserialize emptyStore (100 :: (strEnc (strBytes "_config")
        ++ (100 :: (pairsFlat [(strBytes "dbversion", strBytes "98")]
          ++ 101 :: []))))).1.isOk = false ∧
    (Sql.deserialize emptyStore (100 :: (strEnc (strBytes "_config")
        ++ (100 :: (pairsFlat [(strBytes "dbversion", strBytes "98")]
          ++ 101 :: []))))).2 = emptyStore :=
  claim_C5_snapshot_rejection emptyStore
    [(strBytes "dbversion", strBytes "98")] [] (by decide)

/-- C10 (confirmed): `Sql::deserialize` never commits the write transaction
it opens — the `commit` call is commented out in the source — so for every
store and every input stream the store visible after the call equals the
input store, whether decoding succeeds or fails. -/
theorem claim_C10_transaction_dropped (store : Store) (r : List Nat) :
    (Sql.deserialize store r).2 = store :=
  sqlDeserialize_snd store r

end Snapshot

namespace Scheduler

/-- Failure iterations commute with one more failure step. -/
theorem iterFail_comm :
    ∀ (k : Nat) (t : Option Nat),
      iterFail (k + 1) t = smtpLoopStep (iterFail k t) true false := by
  intro k
  induction k with
  | zero => intro t; rfl
  | succ j ih =>
    intro t
    rw [show iterFail (j + 1 + 1) t
        = iterFail (j + 1) (smtpLoopStep t true false) from rfl, ih]
    rw [show iterFail (j + 1) t
        = iterFail j (smtpLoopStep t true false) from rfl]

/-- Saturation point of the tripling chain. -/
theorem satMul3_min (a : Nat) :
    satMul3 (min a (2 ^ 64 - 1)) = min (3 * a) (2 ^ 64 - 1) := by
  have hM : (2 : Nat) ^ 64 - 1 = 18446744073709551615 := by norm_num
  unfold satMul3
  rw [hM]
  omega

end Scheduler

section SchedulerClaims

open Scheduler

/-- C9 (amended): starting from a state with no pending retry timeout, after
k ≥ 1 consecutive failures of the send call the retry-timeout variable equals
`min(30·3^(k-1), 2^64-1)` seconds (u64 saturation); a successful send resets
the variable to none only when the rate limiter permits sending — a
rate-limited success leaves it unchanged. -/
theorem claim_C9_smtp_backoff :
    (∀ k, 1 ≤ k →
      iterFail k none = some (min (30 * 3 ^ (k - 1)) (2 ^ 64 - 1))) ∧
    (∀ timeout, smtpLoopStep timeout false false = none) := by
  refine ⟨?_, fun timeout => rfl⟩
  intro k hk
  obtain ⟨j, rfl⟩ : ∃ j, k = j + 1 := ⟨k - 1, by omega⟩
  clear hk
  simp only [Nat.add_sub_cancel]
  induction j with
  | zero => decide
  | succ i ihj =>
    rw [iterFail_comm, ihj]
    show some (satMul3 (min (30 * 3 ^ i) (2 ^ 64 - 1)))
        = some (min (30 * 3 ^ (i + 1)) (2 ^ 64 - 1))
    rw [satMul3_min]
    have h3 : 3 * (30 * 3 ^ i) = 30 * 3 ^ (i + 1) := by
      rw [pow_succ]
      ring
    rw [h3]

/-- Witness for C9 at k = 3: the third consecutive failure sets the timeout
to 270 seconds, and a clean success clears it. -/
theorem claim_C9_witness :
    iterFail 3 none = some (min (30 * 3 ^ (3 - 1)) (2 ^ 64 - 1)) ∧
    smtpLoopStep (some 30) false false = none :=
  ⟨claim_C9_smtp_backoff.1 3 (by norm_num),
    claim_C9_smtp_backoff.2 (some 30)⟩

/-- C9 counterexample: with a pending 30-second retry timeout, a successful
send that hits the rate limiter keeps the timeout at 30 seconds instead of
resetting it to none, refuting the claim's final clause as stated. -/
theorem claim_C9_counterexample :
    smtpLoopStep (some 30) false true = some 30 ∧
    ¬ smtpLoopStep (some 30) false true = none :=
  ⟨rfl, by decide⟩

end SchedulerClaims
